import Mathlib

/-!
# QAmqpExchange: declare / publish / publisher confirms

A shallow embedding of `src/qamqpexchange.cpp`.  The exchange's private data
(`QAmqpExchangePrivate`) is a record; every member function is a function on
that record.  Frames handed to `sendFrame` and signals raised with `Q_EMIT`
are appended to two logs kept in the record, so that "sends no frame" and
"raises no event" are statements about those logs.

C++ `int` and `qlonglong` values are modelled in `Int`: additions are exact as
long as they stay inside the machine range, and outside it C++ gives signed
arithmetic no meaning.  The one loop of the file that may fail to terminate
(the body chunking of `publish`) is a function with fuel.
-/

namespace QAmqp

/-! ## Data model -/

/-- A byte array (`QByteArray`). -/
abbrev QByteArray := List UInt8

/-- Modelled from the spec: a value stored in an argument table ("typed AMQP
value"); the declaration of `QAmqpTable` is not in this file. -/
inductive TableValue
  | boolean (b : Bool)
  | integer (i : Int)
  | text (s : String)
  deriving DecidableEq, Repr

/-- Modelled from the spec: `QAmqpTable`, an ordered mapping of string to typed
AMQP value. -/
abbrev QAmqpTable := List (String × TableValue)

/-- The exchange states of `QAmqpExchangePrivate::ExchangeState`, as listed by
`operator<<`. -/
inductive ExchangeState
  | EX_CLOSED
  | EX_UNDECLARED
  | EX_DECLARING
  | EX_DECLARED
  | EX_REMOVING
  deriving DecidableEq, Repr

/-- The exchange types of `QAmqpExchange::ExchangeType`, as listed by
`typeToString`. -/
inductive ExchangeType
  | Direct
  | FanOut
  | Topic
  | Headers
  deriving DecidableEq, Repr

/-- Modelled from the spec: the states of the channel layer; only `CH_CLOSED`
is named in this file, the others stand for every state that is not closed. -/
inductive ChannelState
  | CH_CLOSED
  | CH_OPENING
  | CH_OPEN
  | CH_CLOSING
  deriving DecidableEq, Repr

/-- Modelled from the spec: the method classes of `QAmqpFrame`; this file uses
`Exchange`, `Basic` and `Confirm`. -/
inductive MethodClass
  | Connection
  | Channel
  | Exchange
  | Queue
  | Basic
  | Confirm
  | Tx
  deriving DecidableEq, Repr

/-- Modelled from the spec: method id of `exchange.declare` (AMQP 0-9-1). -/
def miDeclare : Nat := 10
/-- Modelled from the spec: method id of `exchange.declare-ok` (AMQP 0-9-1). -/
def miDeclareOk : Nat := 11
/-- Modelled from the spec: method id of `exchange.delete` (AMQP 0-9-1). -/
def miDelete : Nat := 20
/-- Modelled from the spec: method id of `exchange.delete-ok` (AMQP 0-9-1). -/
def miDeleteOk : Nat := 21
/-- Modelled from the spec: method id of `basic.publish` (AMQP 0-9-1). -/
def bmPublish : Nat := 40
/-- Modelled from the spec: method id of `basic.return` (AMQP 0-9-1). -/
def bmReturn : Nat := 50
/-- Modelled from the spec: method id of `basic.ack` (AMQP 0-9-1). -/
def bmAck : Nat := 80
/-- Modelled from the spec: method id of `basic.nack` (AMQP 0-9-1). -/
def bmNack : Nat := 120
/-- Modelled from the spec: method id of `confirm.select` (AMQP 0-9-1). -/
def cmConfirm : Nat := 10
/-- Modelled from the spec: method id of `confirm.select-ok` (AMQP 0-9-1). -/
def cmConfirmOk : Nat := 11

/-- Modelled from the spec: `QAMQP::NoError`, the success sentinel among the
reply codes. -/
def NoError : Nat := 0

/-- The cast `qint8(v)`: the low eight bits of `v`, read as a signed byte. -/
def qint8 (v : Int) : Int := (v + 128) % 256 - 128

/-- The cast `qint16(v)`: the low sixteen bits of `v`, read as signed. -/
def qint16 (v : Int) : Int := (v + 32768) % 65536 - 32768

/-- One AMQP field of a method frame's argument stream.  The byte codec
(`QDataStream`, `QAmqpFrame::writeAmqpField` / `readAmqpField`) is outside this
file; the model keeps the sequence of typed fields that are written or read. -/
inductive Field
  | short (v : Int)
  | octet (v : Int)
  | ushort (v : Nat)
  | shortString (s : String)
  | hash (t : QAmqpTable)
  | longLong (v : Int)
  | boolean (b : Bool)
  deriving DecidableEq, Repr

/-- A method frame (`QAmqpMethodFrame`): class, method id, channel, arguments. -/
structure QAmqpMethodFrame where
  methodClass : MethodClass
  id : Nat
  channel : Int
  arguments : List Field
  deriving DecidableEq, Repr

/-- Modelled from the spec: the message properties of `QAmqpMessage::Property`
(the AMQP basic properties); `publish` names four of them. -/
inductive Property
  | ContentType
  | ContentEncoding
  | Headers
  | DeliveryMode
  | Priority
  | CorrelationId
  | ReplyTo
  | Expiration
  | MessageId
  | Timestamp
  | Type
  | UserId
  | AppId
  | ClusterID
  deriving DecidableEq, Repr

/-- A property value (`QVariant`), as far as `publish` builds one. -/
inductive QVariant
  | text (s : String)
  | table (t : QAmqpTable)
  | number (i : Int)
  deriving DecidableEq, Repr

/-- The hash `QAmqpMessage::PropertyHash`, in iteration order. -/
abbrev PropertyHash := List (Property × QVariant)

/-- The effect of `setProperty` on a property hash: the key's old value, if
any, is replaced. -/
def setProperty (h : PropertyHash) (k : Property) (v : QVariant) : PropertyHash :=
  if h.any (fun kv => kv.1 = k) then
    h.map (fun kv => if kv.1 = k then (k, v) else kv)
  else
    h ++ [(k, v)]

/-- A frame handed to `sendFrame`: a method frame, a content-header frame
(`QAmqpContentFrame`) or a body frame (`QAmqpContentBodyFrame`). -/
inductive Frame
  | method (frame : QAmqpMethodFrame)
  | content (methodClass : MethodClass) (channel : Int)
      (properties : PropertyHash) (bodySize : Int)
  | contentBody (channel : Int) (body : QByteArray)
  deriving DecidableEq, Repr

/-- The signals of `QAmqpExchange` raised in this file. -/
inductive Signal
  | declared
  | removed
  | confirmsEnabled
  | allMessagesDelivered
  | error (code : Nat)
  deriving DecidableEq, Repr

/-- The private data of an exchange (`QAmqpExchangePrivate`, with the members
of the channel layer that this file reads), followed by the two logs:
`sent` holds the frames passed to `sendFrame`, oldest first, and `emitted` the
signals raised, oldest first. -/
structure QAmqpExchangePrivate where
  name : String
  type : String
  options : Int
  arguments : QAmqpTable
  channelNumber : Int
  frameMax : Int
  delayedDeclare : Bool
  exchangeState : ExchangeState
  nextDeliveryTag : Int
  unconfirmedDeliveryTags : List Int
  error : Nat
  errorString : String
  sent : List Frame
  emitted : List Signal
  deriving DecidableEq, Repr

/-- The constructor `QAmqpExchangePrivate::QAmqpExchangePrivate`: no delayed
declare, state closed, tagging disabled; the name, channel number and frame
size come from the channel layer. -/
def QAmqpExchangePrivate.init (name : String) (channelNumber frameMax : Int) :
    QAmqpExchangePrivate :=
  { name := name, type := "", options := 0, arguments := [],
    channelNumber := channelNumber, frameMax := frameMax,
    delayedDeclare := false, exchangeState := .EX_CLOSED,
    nextDeliveryTag := 0, unconfirmedDeliveryTags := [],
    error := NoError, errorString := "", sent := [], emitted := [] }

/-! ## Containers -/

/-- The test `QString::isEmpty`. -/
def isEmpty (s : String) : Bool := decide (s = "")

/-- The search `QVector::indexOf`: the index of the first occurrence of `t`,
or `-1` when there is none. -/
def indexOf : List Int → Int → Int
  | [], _ => -1
  | x :: xs, t =>
    if x = t then 0
    else
      let i := indexOf xs t
      if i = -1 then -1 else i + 1

/-- The call `QVector::remove(i, count)`: drops `count` elements from index
`i` on. -/
def removeRange (v : List Int) (i count : Int) : List Int :=
  v.take i.toNat ++ v.drop (i.toNat + count.toNat)

/-- The call `QVector::remove(i)`: drops the element at index `i`. -/
def removeAt (v : List Int) (i : Int) : List Int :=
  v.take i.toNat ++ v.drop (i.toNat + 1)

/-- The call `QByteArray::mid(pos, len)` of Qt 5: `len` bytes from position
`pos`, cut at the end of the array; the whole tail when `len` is negative; a
negative `pos` shortens `len` by as much. -/
def mid (a : QByteArray) (pos len : Int) : QByteArray :=
  let size : Int := a.length
  if pos > size then []
  else if pos < 0 then
    if len < 0 ∨ len + pos ≥ size then a
    else if len + pos ≤ 0 then []
    else a.take (len + pos).toNat
  else if len < 0 ∨ len > size - pos then a.drop pos.toNat
  else (a.drop pos.toNat).take len.toNat

/-! ## Private member functions -/

namespace QAmqpExchangePrivate

/-- The member `typeToString`. -/
def typeToString : ExchangeType → String
  | .Direct => "direct"
  | .FanOut => "fanout"
  | .Topic => "topic"
  | .Headers => "headers"

/-- The member `newState(ExchangeState)`: report and change state. -/
def newState (d : QAmqpExchangePrivate) (state : ExchangeState) : QAmqpExchangePrivate :=
  { d with exchangeState := state }

/-- The call `sendFrame(frame)` of the channel layer: the frame is handed to
the transport, which the model records in the log. -/
def sendFrame (d : QAmqpExchangePrivate) (frame : Frame) : QAmqpExchangePrivate :=
  { d with sent := d.sent ++ [frame] }

/-- The statement `Q_EMIT sig`: the signal is recorded in the log. -/
def emit (d : QAmqpExchangePrivate) (sig : Signal) : QAmqpExchangePrivate :=
  { d with emitted := d.emitted ++ [sig] }

/-- The exchange.declare method frame built by the private `declare`. -/
def declareFrame (d : QAmqpExchangePrivate) : QAmqpMethodFrame :=
  { methodClass := .Exchange, id := miDeclare, channel := d.channelNumber,
    arguments := [.short (qint16 0), .shortString d.name, .shortString d.type,
                  .octet (qint8 d.options), .hash d.arguments] }

/-- The private member `declare()`. -/
def declare (d : QAmqpExchangePrivate) : QAmqpExchangePrivate :=
  if d.exchangeState ≠ .EX_UNDECLARED then
    if d.exchangeState ≠ .EX_DECLARING then
      { d with delayedDeclare := true }
    else d
  else if isEmpty d.name then d
  else
    let d := d.newState .EX_DECLARING
    let d := d.sendFrame (.method d.declareFrame)
    { d with delayedDeclare := false }

/-- The handler `declareOk`. -/
def declareOk (d : QAmqpExchangePrivate) (_frame : QAmqpMethodFrame) : QAmqpExchangePrivate :=
  (d.newState .EX_DECLARED).emit .declared

/-- The handler `deleteOk`. -/
def deleteOk (d : QAmqpExchangePrivate) (_frame : QAmqpMethodFrame) : QAmqpExchangePrivate :=
  (d.newState .EX_UNDECLARED).emit .removed

/-- The slot `_q_disconnected`.  The part done by the channel layer
(`QAmqpChannelPrivate::_q_disconnected`) is outside this file. -/
def _q_disconnected (d : QAmqpExchangePrivate) : QAmqpExchangePrivate :=
  ({ d with delayedDeclare := false }).newState .EX_CLOSED

/-- The member `newState(ChannelState)`: closing the channel closes the
exchange. -/
def newChannelState (d : QAmqpExchangePrivate) (state : ChannelState) : QAmqpExchangePrivate :=
  if state = .CH_CLOSED then d.newState .EX_CLOSED else d

/-- Reads a `quint16` from the argument stream (0 when the stream has no such
field next). -/
def readUShort : List Field → Nat × List Field
  | .ushort v :: rest => (v, rest)
  | _ :: rest => (0, rest)
  | [] => (0, [])

/-- The call `readAmqpField(stream, ShortString).toString()`. -/
def readShortString : List Field → String × List Field
  | .shortString s :: rest => (s, rest)
  | _ :: rest => ("", rest)
  | [] => ("", [])

/-- The call `readAmqpField(stream, LongLongUint).toLongLong()`. -/
def readLongLong : List Field → Int × List Field
  | .longLong v :: rest => (v, rest)
  | _ :: rest => (0, rest)
  | [] => (0, [])

/-- The call `readAmqpField(stream, Boolean).toBool()`. -/
def readBool : List Field → Bool × List Field
  | .boolean b :: rest => (b, rest)
  | _ :: rest => (false, rest)
  | [] => (false, [])

/-- The handler `basicReturn`.  The reply code is kept as the number read
(`static_cast<QAMQP::Error>`), and the trip of the reply text through
`qPrintable` and back into the error string is taken as the identity, which it
is on text that the local 8-bit encoding represents. -/
def basicReturn (d : QAmqpExchangePrivate) (frame : QAmqpMethodFrame) : QAmqpExchangePrivate :=
  let (replyCode, stream) := readUShort frame.arguments
  let (replyText, stream) := readShortString stream
  let (_exchangeName, stream) := readShortString stream
  let (_routingKey, _) := readShortString stream
  let checkError := replyCode
  if checkError ≠ NoError then
    ({ d with error := checkError, errorString := replyText }).emit (.error checkError)
  else d

/-- The handler `handleAckOrNack`. -/
def handleAckOrNack (d : QAmqpExchangePrivate) (frame : QAmqpMethodFrame) : QAmqpExchangePrivate :=
  let (deliveryTag, stream) := readLongLong frame.arguments
  let (multiple, _) := readBool stream
  if frame.id = bmAck then
    let cleared : Option QAmqpExchangePrivate :=
      if deliveryTag = 0 then
        some { d with unconfirmedDeliveryTags := [] }
      else
        let idx := indexOf d.unconfirmedDeliveryTags deliveryTag
        if idx = -1 then none
        else if multiple then
          some { d with unconfirmedDeliveryTags := removeRange d.unconfirmedDeliveryTags 0 (idx + 1) }
        else
          some { d with unconfirmedDeliveryTags := removeAt d.unconfirmedDeliveryTags idx }
    match cleared with
    | none => d
    | some d =>
      if d.unconfirmedDeliveryTags.isEmpty then d.emit .allMessagesDelivered else d
  else d

end QAmqpExchangePrivate

/-! ## Public member functions -/

namespace QAmqpExchange

open QAmqpExchangePrivate

/-- The virtual `channelOpened()`. -/
def channelOpened (d : QAmqpExchangePrivate) : QAmqpExchangePrivate :=
  if isEmpty d.name then
    (d.newState .EX_DECLARED).emit .declared
  else
    let d := d.newState .EX_UNDECLARED
    if d.delayedDeclare then d.declare else d

/-- The virtual `channelClosed()`. -/
def channelClosed (d : QAmqpExchangePrivate) : QAmqpExchangePrivate :=
  d.newState .EX_CLOSED

/-- The getter `options()`. -/
def options (d : QAmqpExchangePrivate) : Int := d.options

/-- The getter `type()`. -/
def type (d : QAmqpExchangePrivate) : String := d.type

/-- The query `isDeclared()`. -/
def isDeclared (d : QAmqpExchangePrivate) : Bool :=
  decide (d.exchangeState = .EX_DECLARED)

/-- The public `declare(const QString &type, options, args)`. -/
def declare (d : QAmqpExchangePrivate) (type : String) (options : Int) (args : QAmqpTable) :
    QAmqpExchangePrivate :=
  let d := d.newState .EX_DECLARING
  let d := { d with type := type }
  let d := { d with options := options }
  let d := { d with arguments := args }
  d.declare

/-- The public `declare(ExchangeType type, options, args)`. -/
def declareType (d : QAmqpExchangePrivate) (type : ExchangeType) (options : Int)
    (args : QAmqpTable) : QAmqpExchangePrivate :=
  declare d (typeToString type) options args

/-- The exchange.delete method frame built by `remove`. -/
def deleteFrame (d : QAmqpExchangePrivate) (options : Int) : QAmqpMethodFrame :=
  { methodClass := .Exchange, id := miDelete, channel := d.channelNumber,
    arguments := [.short (qint16 0), .shortString d.name, .octet (qint8 options)] }

/-- The public `remove(options)`. -/
def remove (d : QAmqpExchangePrivate) (options : Int) : QAmqpExchangePrivate :=
  if d.exchangeState ≠ .EX_DECLARED then
    { d with delayedDeclare := false }
  else
    d.sendFrame (.method (deleteFrame d options))

/-- The basic.publish method frame built by `publish`. -/
def publishFrame (d : QAmqpExchangePrivate) (routingKey : String) (publishOptions : Int) :
    QAmqpMethodFrame :=
  { methodClass := .Basic, id := bmPublish, channel := d.channelNumber,
    arguments := [.short (qint16 0), .shortString d.name, .shortString routingKey,
                  .octet (qint8 publishOptions)] }

/-- The property hash of the content-header frame built by `publish`: four
defaults, then the caller's properties in iteration order. -/
def contentProperties (mimeType : String) (headers : QAmqpTable) (properties : PropertyHash) :
    PropertyHash :=
  let content := setProperty [] .ContentType (.text mimeType)
  let content := setProperty content .ContentEncoding (.text "utf-8")
  let content := setProperty content .Headers (.table headers)
  let content := setProperty content .MessageId (.text "0")
  properties.foldl (fun c kv => setProperty c kv.1 kv.2) content

/-- The content-header frame built by `publish`. -/
def contentFrame (d : QAmqpExchangePrivate) (message : QByteArray) (mimeType : String)
    (headers : QAmqpTable) (properties : PropertyHash) : Frame :=
  .content .Basic d.channelNumber (contentProperties mimeType headers properties)
    (message.length : Int)

/-- The body loop of `publish`,
`for (int sent = 0; sent < fullSize; sent += frameMax() - 7)`, entered with the
given value of `sent`.  Each test of the loop condition costs one unit of
fuel; `none` means the fuel ran out before the loop ended. -/
def bodyLoop : Nat → QAmqpExchangePrivate → QByteArray → Int → Int → Option QAmqpExchangePrivate
  | 0, _, _, _, _ => none
  | fuel + 1, d, message, fullSize, sent =>
    if sent < fullSize then
      let partition := mid message sent (d.frameMax - 7)
      let d := d.sendFrame (.contentBody d.channelNumber partition)
      bodyLoop fuel d message fullSize (sent + (d.frameMax - 7))
    else some d

/-- The public `publish(const QByteArray &message, routingKey, mimeType,
headers, properties, publishOptions)`, with the fuel for its body loop;
`none` means the loop did not end within the fuel. -/
def publishFuel (fuel : Nat) (d : QAmqpExchangePrivate) (message : QByteArray)
    (routingKey mimeType : String) (headers : QAmqpTable) (properties : PropertyHash)
    (publishOptions : Int) : Option QAmqpExchangePrivate :=
  if d.exchangeState ≠ .EX_DECLARED then some d
  else
    let d :=
      if d.nextDeliveryTag > 0 then
        { d with unconfirmedDeliveryTags := d.unconfirmedDeliveryTags ++ [d.nextDeliveryTag],
                 nextDeliveryTag := d.nextDeliveryTag + 1 }
      else d
    let d := d.sendFrame (.method (publishFrame d routingKey publishOptions))
    let d := d.sendFrame (contentFrame d message mimeType headers properties)
    let fullSize : Int := message.length
    bodyLoop fuel d message fullSize 0

/-- The public `publish` run to completion: the body loop gets
`message.size() + 1` units of fuel, which is enough whenever the loop ends at
all, so `none` means that the call never returns. -/
def publish (d : QAmqpExchangePrivate) (message : QByteArray) (routingKey mimeType : String)
    (headers : QAmqpTable) (properties : PropertyHash) (publishOptions : Int) :
    Option QAmqpExchangePrivate :=
  publishFuel (message.length + 1) d message routingKey mimeType headers properties publishOptions

/-- The overload `publish(const QByteArray &message, routingKey, mimeType,
properties, publishOptions)`: no headers. -/
def publishBytes (d : QAmqpExchangePrivate) (message : QByteArray) (routingKey mimeType : String)
    (properties : PropertyHash) (publishOptions : Int) : Option QAmqpExchangePrivate :=
  publish d message routingKey mimeType [] properties publishOptions

/-- The overload `publish(const QString &message, routingKey, properties,
publishOptions)`: the text in UTF-8, mime type text.plain, no headers. -/
def publishText (d : QAmqpExchangePrivate) (message : String) (routingKey : String)
    (properties : PropertyHash) (publishOptions : Int) : Option QAmqpExchangePrivate :=
  publish d message.toUTF8.toList routingKey "text.plain" [] properties publishOptions

/-- The confirm.select method frame built by `enableConfirms`. -/
def confirmFrame (d : QAmqpExchangePrivate) (noWait : Bool) : QAmqpMethodFrame :=
  { methodClass := .Confirm, id := cmConfirm, channel := d.channelNumber,
    arguments := [.octet (qint8 (if noWait then 1 else 0))] }

/-- The public `enableConfirms(noWait)`. -/
def enableConfirms (d : QAmqpExchangePrivate) (noWait : Bool) : QAmqpExchangePrivate :=
  if d.exchangeState ≠ .EX_DECLARED then d
  else
    let d := d.sendFrame (.method (confirmFrame d noWait))
    if d.nextDeliveryTag = 0 then { d with nextDeliveryTag := 1 } else d

end QAmqpExchange

/-! ## Inbound dispatch -/

/-- A call from the channel layer into the virtual functions this file
overrides. -/
inductive ChannelHook
  | channelOpened
  | channelClosed
  | newState (state : ChannelState)
  deriving DecidableEq, Repr

/-- Runs one hook of the channel layer. -/
def ChannelHook.run (d : QAmqpExchangePrivate) : ChannelHook → QAmqpExchangePrivate
  | .channelOpened => QAmqpExchange.channelOpened d
  | .channelClosed => QAmqpExchange.channelClosed d
  | .newState state => d.newChannelState state

/-- Modelled from the spec: `QAmqpChannelPrivate::_q_method`, the channel
layer's own handling of a method frame, which is not in this file.  For a
frame it gives `none` when the channel layer leaves the frame to the exchange
(it returns false), and otherwise the calls it makes into this file while it
consumes the frame. -/
abbrev ChannelLayer := QAmqpMethodFrame → Option (List ChannelHook)

namespace QAmqpExchangePrivate

/-- The dispatcher `_q_method`: the frame goes to the channel layer first,
then by class and id to the handlers of this file.  The boolean is the
function's result (frame consumed). -/
def _q_method (chan : ChannelLayer) (d : QAmqpExchangePrivate) (frame : QAmqpMethodFrame) :
    Bool × QAmqpExchangePrivate :=
  match chan frame with
  | some hooks => (true, hooks.foldl ChannelHook.run d)
  | none =>
    if frame.methodClass = .Basic then
      if frame.id = bmAck ∨ frame.id = bmNack then (true, d.handleAckOrNack frame)
      else if frame.id = bmReturn then (true, d.basicReturn frame)
      else (true, d)
    else if frame.methodClass = .Confirm ∧ frame.id = cmConfirmOk then
      (true, d.emit .confirmsEnabled)
    else if frame.methodClass = .Exchange then
      if frame.id = miDeclareOk then (true, d.declareOk frame)
      else if frame.id = miDeleteOk then (true, d.deleteOk frame)
      else (true, d)
    else (false, d)

end QAmqpExchangePrivate

/-! ## Traces -/

/-- One call into the exchange: a public member function, a callback of the
channel layer, or an inbound method frame. -/
inductive Op
  | declare (type : String) (options : Int) (args : QAmqpTable)
  | declareType (type : ExchangeType) (options : Int) (args : QAmqpTable)
  | remove (options : Int)
  | publish (message : QByteArray) (routingKey mimeType : String) (headers : QAmqpTable)
      (properties : PropertyHash) (publishOptions : Int)
  | enableConfirms (noWait : Bool)
  | channelOpened
  | channelClosed
  | disconnected
  | method (frame : QAmqpMethodFrame)
  deriving DecidableEq, Repr

/-- Runs one call; `none` when the call never returns. -/
def step (chan : ChannelLayer) (d : QAmqpExchangePrivate) : Op → Option QAmqpExchangePrivate
  | .declare type options args => some (QAmqpExchange.declare d type options args)
  | .declareType type options args => some (QAmqpExchange.declareType d type options args)
  | .remove options => some (QAmqpExchange.remove d options)
  | .publish message routingKey mimeType headers properties publishOptions =>
    QAmqpExchange.publish d message routingKey mimeType headers properties publishOptions
  | .enableConfirms noWait => some (QAmqpExchange.enableConfirms d noWait)
  | .channelOpened => some (QAmqpExchange.channelOpened d)
  | .channelClosed => some (QAmqpExchange.channelClosed d)
  | .disconnected => some d._q_disconnected
  | .method frame => some (d._q_method chan frame).2

/-- Runs a sequence of calls, oldest first. -/
def run (chan : ChannelLayer) : QAmqpExchangePrivate → List Op → Option QAmqpExchangePrivate
  | d, [] => some d
  | d, op :: ops => (step chan d op).bind (fun d1 => run chan d1 ops)

/-- Whether a call is a publish. -/
def Op.isPublish : Op → Bool
  | .publish _ _ _ _ _ _ => true
  | _ => false

/-- The number of publishes in a sequence of calls. -/
def countPublish (ops : List Op) : Nat := ops.countP Op.isPublish

/-- Whether a call is confirm traffic: a publish, or an inbound frame of class
Basic (ack, nack, return) that the channel layer leaves to the exchange. -/
def Op.isConfirmTraffic (chan : ChannelLayer) : Op → Bool
  | .publish _ _ _ _ _ _ => true
  | .method frame => (chan frame).isNone && decide (frame.methodClass = .Basic)
  | _ => false

/-- The basic.ack frame with the given delivery tag and multiple flag. -/
def ackFrame (channel : Int) (deliveryTag : Int) (multiple : Bool) : QAmqpMethodFrame :=
  { methodClass := .Basic, id := bmAck, channel := channel,
    arguments := [.longLong deliveryTag, .boolean multiple] }

/-- The basic.nack frame with the given delivery tag and multiple flag. -/
def nackFrame (channel : Int) (deliveryTag : Int) (multiple : Bool) : QAmqpMethodFrame :=
  { methodClass := .Basic, id := bmNack, channel := channel,
    arguments := [.longLong deliveryTag, .boolean multiple] }

/-- A channel layer that consumes the frames of class Channel, without calling
back, and leaves every other frame to the exchange. -/
def channelOnly : ChannelLayer :=
  fun frame => if frame.methodClass = .Channel then some [] else none

/-! ## Sample exchanges -/

/-- The exchange named "logs" on channel 1 with a frame size of 4096, right
after its channel opened: state undeclared. -/
def logsUndeclared : QAmqpExchangePrivate :=
  QAmqpExchange.channelOpened (QAmqpExchangePrivate.init "logs" 1 4096)

/-- The exchange named "logs" while a declare is in flight. -/
def logsDeclaring : QAmqpExchangePrivate :=
  { QAmqpExchangePrivate.init "logs" 1 4096 with exchangeState := .EX_DECLARING }

/-- The exchange named "logs" once declared. -/
def logsDeclared : QAmqpExchangePrivate :=
  { QAmqpExchangePrivate.init "logs" 1 4096 with exchangeState := .EX_DECLARED }

/-- The nameless exchange on channel 1, right after its channel opened: it is
declared by default. -/
def namelessDeclared : QAmqpExchangePrivate :=
  QAmqpExchange.channelOpened (QAmqpExchangePrivate.init "" 1 4096)

/-- The exchange "logs" with confirms enabled and the tags 1, 2, 3 outstanding. -/
def logsThree : QAmqpExchangePrivate :=
  { logsDeclared with nextDeliveryTag := 4, unconfirmedDeliveryTags := [1, 2, 3] }

/-- The exchange "logs" with confirms enabled and the tags 1, 3 outstanding
(three publishes, then tag 2 acknowledged on its own). -/
def logsOneThree : QAmqpExchangePrivate :=
  { logsDeclared with nextDeliveryTag := 4, unconfirmedDeliveryTags := [1, 3] }

/-- An exchange record whose tag set is out of order, as no run of the code
produces it. -/
def logsShuffled : QAmqpExchangePrivate :=
  { logsDeclared with nextDeliveryTag := 4, unconfirmedDeliveryTags := [3, 1, 2] }

/-- The exchange "logs", declared, on a connection whose frame size is 9, so
that a body frame carries two bytes. -/
def logsSmallFrames : QAmqpExchangePrivate :=
  { QAmqpExchangePrivate.init "logs" 1 9 with exchangeState := .EX_DECLARED }

/-- A stretch of confirm traffic: two publishes with an ack and a nack in
between. -/
def confirmTrafficSample : List Op :=
  [.publish [104, 105] "rk" "text.plain" [] [] 0,
   .method (ackFrame 1 1 false),
   .publish [] "rk" "text.plain" [] [] 0,
   .method (nackFrame 1 2 false)]

/-! ## Auxiliary notions for the statements -/

/-- The spec's chunk number `i` (from 0) of a body cut into consecutive chunks
of `c` bytes: the bytes from offset `i * c` on, at most `c` of them. -/
def chunk (message : QByteArray) (c i : Nat) : QByteArray :=
  (message.drop (i * c)).take c

/-- The spec's number of chunks of a body of `n` bytes: `n / c` rounded up. -/
def chunkCount (n c : Nat) : Nat := (n + c - 1) / c

/-- The spec's consecutive chunks of a body, in order. -/
def chunks (message : QByteArray) (c : Nat) : List QByteArray :=
  (List.range (chunkCount message.length c)).map (chunk message c)

/-- The delivery tag that `handleAckOrNack` decodes from a frame. -/
def ackTag (frame : QAmqpMethodFrame) : Int :=
  (QAmqpExchangePrivate.readLongLong frame.arguments).1

/-- The multiple flag that `handleAckOrNack` decodes from a frame. -/
def ackMultiple (frame : QAmqpMethodFrame) : Bool :=
  (QAmqpExchangePrivate.readBool (QAmqpExchangePrivate.readLongLong frame.arguments).2).1

/-- The record `d1` comes from `d` without a change of the unconfirmed tag set
and with no allMessagesDelivered among the signals raised in between. -/
def Quiet (d d1 : QAmqpExchangePrivate) : Prop :=
  d1.unconfirmedDeliveryTags = d.unconfirmedDeliveryTags ∧
  ∃ new, d1.emitted = d.emitted ++ new ∧ new.count .allMessagesDelivered = 0

/-- The basic.return frame with the given reply code, reply text, exchange
name and routing key. -/
def returnFrame (channel : Int) (replyCode : Nat) (replyText exchangeName routingKey : String) :
    QAmqpMethodFrame :=
  { methodClass := .Basic, id := bmReturn, channel := channel,
    arguments := [.ushort replyCode, .shortString replyText, .shortString exchangeName,
                  .shortString routingKey] }

/-- The exchange.declare-ok frame. -/
def declareOkFrame (channel : Int) : QAmqpMethodFrame :=
  { methodClass := .Exchange, id := miDeclareOk, channel := channel, arguments := [] }

/-- The exchange.delete-ok frame. -/
def deleteOkFrame (channel : Int) : QAmqpMethodFrame :=
  { methodClass := .Exchange, id := miDeleteOk, channel := channel, arguments := [] }

/-- The confirm.select-ok frame. -/
def confirmOkFrame (channel : Int) : QAmqpMethodFrame :=
  { methodClass := .Confirm, id := cmConfirmOk, channel := channel, arguments := [] }

/-- Whether a sent frame is an exchange.declare method frame. -/
def Frame.isDeclare : Frame → Bool
  | .method frame => decide (frame.methodClass = .Exchange) && decide (frame.id = miDeclare)
  | _ => false

/-- The invariant of the confirm bookkeeping: the unconfirmed tags are strictly
increasing, each is at least 1 and below the next tag to assign, and the next
tag is not negative. -/
def TagInv (d : QAmqpExchangePrivate) : Prop :=
  d.unconfirmedDeliveryTags.Pairwise (· < ·) ∧
  (∀ t ∈ d.unconfirmedDeliveryTags, 1 ≤ t ∧ t < d.nextDeliveryTag) ∧
  0 ≤ d.nextDeliveryTag

/-- The record `d1` has the confirm bookkeeping of `d`: same unconfirmed tags
and same next tag. -/
def SameTags (d d1 : QAmqpExchangePrivate) : Prop :=
  d1.unconfirmedDeliveryTags = d.unconfirmedDeliveryTags ∧
  d1.nextDeliveryTag = d.nextDeliveryTag

/-- The invariant of the declare path: no delayed declare is pending and no
exchange.declare frame has been sent. -/
def NoDeclare (d : QAmqpExchangePrivate) : Prop :=
  d.delayedDeclare = false ∧ ∀ frame ∈ d.sent, frame.isDeclare = false

/-- The exchange "logs" with a delayed declare pending, as the private declare
leaves it when it runs on a closed exchange. -/
def logsDelayed : QAmqpExchangePrivate :=
  (QAmqpExchangePrivate.init "logs" 1 4096).declare

/-- The spec's end-to-end scenario on channel `ch`: declare as a topic
exchange, declare-ok, a publish, enableConfirms, confirm-ok, two publishes,
the single ack of tag 1, the cumulative ack of tag 2. -/
def logsScenario (ch : Int) (b0 b1 b2 : QByteArray) : List Op :=
  [.declareType .Topic 0 [],
   .method (declareOkFrame ch),
   .publish b0 "rk" "text.plain" [] [] 0,
   .enableConfirms false,
   .method (confirmOkFrame ch),
   .publish b1 "rk" "text.plain" [] [] 0,
   .publish b2 "rk" "text.plain" [] [] 0,
   .method (ackFrame ch 1 false),
   .method (ackFrame ch 2 true)]

/-- A mixed sequence of calls: declare, channel cycling, publishes, confirms,
acks, remove. -/
def mixedSample : List Op :=
  [.channelOpened,
   .declare "fanout" 0 [],
   .method (declareOkFrame 1),
   .enableConfirms true,
   .publish [1, 2, 3] "rk" "text.plain" [] [] 0,
   .publish [] "rk" "text.plain" [] [] 0,
   .method (ackFrame 1 1 false),
   .remove 0,
   .method (deleteOkFrame 1),
   .channelClosed,
   .channelOpened,
   .declareType .Direct 0 [],
   .disconnected]

/-! ## Declare -/

/-- C1, evaluated on the code: the public declare of the named exchange "logs" in state
undeclared sends no frame at all (the state becomes declaring, the flag stays
false), although the private declare called on the same exchange with the same
type would send the exchange.declare frame. -/
theorem C1_public_declare_sends_nothing :
    logsUndeclared.name = "logs" ∧
    logsUndeclared.exchangeState = .EX_UNDECLARED ∧
    (QAmqpExchange.declare logsUndeclared "topic" 0 []).sent = [] ∧
    (QAmqpExchange.declare logsUndeclared "topic" 0 []).exchangeState = .EX_DECLARING ∧
    (QAmqpExchange.declare logsUndeclared "topic" 0 []).delayedDeclare = false ∧
    (QAmqpExchangePrivate.declare { logsUndeclared with type := "topic" }).sent =
      [.method { methodClass := .Exchange, id := miDeclare, channel := 1,
                 arguments := [.short 0, .shortString "logs", .shortString "topic",
                               .octet 0, .hash []] }] := by
  decide

/-- C2, as stated, fails: for the exchange "logs" in state declaring, a further
declare leaves the delayed-declare flag false, and the next channelOpened
sends no frame. -/
theorem C2_declare_while_declaring_counterexample :
    logsDeclaring.name ≠ "" ∧
    logsDeclaring.exchangeState = .EX_DECLARING ∧
    (QAmqpExchange.declare logsDeclaring "topic" 0 []).delayedDeclare = false ∧
    (QAmqpExchange.channelOpened (QAmqpExchange.declare logsDeclaring "topic" 0 [])).sent = [] := by
  decide

/-- C2, amended: for a named exchange in state declaring, a further declare
sends no frame, keeps the state, and leaves the delayed-declare flag as it
was; the next channelOpened sends exactly one exchange.declare frame (with the
given type, options and arguments) and clears the flag if the flag was true,
and sends nothing if it was false. -/
theorem C2_declare_while_declaring (d : QAmqpExchangePrivate) (type : String) (options : Int)
    (args : QAmqpTable) (hname : d.name ≠ "") (_hstate : d.exchangeState = .EX_DECLARING) :
    (QAmqpExchange.declare d type options args).sent = d.sent ∧
    (QAmqpExchange.declare d type options args).exchangeState = .EX_DECLARING ∧
    (QAmqpExchange.declare d type options args).delayedDeclare = d.delayedDeclare ∧
    (d.delayedDeclare = true →
      (QAmqpExchange.channelOpened (QAmqpExchange.declare d type options args)).sent =
        d.sent ++ [.method { methodClass := .Exchange, id := miDeclare,
                             channel := d.channelNumber,
                             arguments := [.short 0, .shortString d.name, .shortString type,
                                           .octet (qint8 options), .hash args] }] ∧
      (QAmqpExchange.channelOpened (QAmqpExchange.declare d type options args)).exchangeState =
        .EX_DECLARING ∧
      (QAmqpExchange.channelOpened (QAmqpExchange.declare d type options args)).delayedDeclare =
        false) ∧
    (d.delayedDeclare = false →
      (QAmqpExchange.channelOpened (QAmqpExchange.declare d type options args)).sent = d.sent ∧
      (QAmqpExchange.channelOpened (QAmqpExchange.declare d type options args)).exchangeState =
        .EX_UNDECLARED ∧
      (QAmqpExchange.channelOpened (QAmqpExchange.declare d type options args)).delayedDeclare =
        false) := by
  have hq : qint16 0 = 0 := by decide
  refine ⟨?_, ?_, ?_, ?_, ?_⟩ <;>
    simp [QAmqpExchange.declare, QAmqpExchange.channelOpened, QAmqpExchangePrivate.declare,
      QAmqpExchangePrivate.newState, QAmqpExchangePrivate.sendFrame,
      QAmqpExchangePrivate.declareFrame, isEmpty, hname, hq]
  · intro h; simp [h]
  · intro h; simp [h]

/-- Witness of C2 amended, at the exchange "logs" in state declaring. -/
theorem C2_declare_while_declaring_witness :
    (QAmqpExchange.declare logsDeclaring "topic" 0 []).sent = logsDeclaring.sent ∧
    (QAmqpExchange.declare logsDeclaring "topic" 0 []).delayedDeclare =
      logsDeclaring.delayedDeclare :=
  have h := C2_declare_while_declaring logsDeclaring "topic" 0 [] (by decide) (by decide)
  ⟨h.1, h.2.2.1⟩

/-- C3, evaluated on the code: the public declare of the nameless exchange in state
declared sends no frame but moves the state to declaring, so the exchange no
longer counts as declared; the private declare called in state undeclared
leaves the state alone. -/
theorem C3_nameless_declare_changes_state :
    namelessDeclared.name = "" ∧
    namelessDeclared.exchangeState = .EX_DECLARED ∧
    (QAmqpExchange.declare namelessDeclared "direct" 0 []).sent = [] ∧
    (QAmqpExchange.declare namelessDeclared "direct" 0 []).exchangeState = .EX_DECLARING ∧
    QAmqpExchange.isDeclared (QAmqpExchange.declare namelessDeclared "direct" 0 []) = false ∧
    (QAmqpExchangePrivate.declare
      { namelessDeclared with exchangeState := .EX_UNDECLARED }).exchangeState =
      .EX_UNDECLARED := by
  decide

/-! ## Acknowledgements -/

open QAmqpExchangePrivate

/-- A tag that is not in the vector has index -1. -/
theorem indexOf_of_not_mem (l : List Int) (t : Int) (h : t ∉ l) : indexOf l t = -1 := by
  induction l with
  | nil => rfl
  | cons x xs ih =>
    simp only [List.mem_cons, not_or] at h
    have hx : ¬ x = t := fun e => h.1 e.symm
    simp [indexOf, hx, ih h.2]

/-- The index of a tag is the length of the part before its first occurrence. -/
theorem indexOf_of_split (l1 l2 : List Int) (t : Int) (h : t ∉ l1) :
    indexOf (l1 ++ t :: l2) t = l1.length := by
  induction l1 with
  | nil => simp [indexOf]
  | cons x xs ih =>
    simp only [List.mem_cons, not_or] at h
    have hx : ¬ x = t := fun e => h.1 e.symm
    have hne : ¬ ((xs.length : Int) = -1) := by omega
    simp [indexOf, hx, ih h.2, hne]

/-- A vector that holds a tag splits at the tag's first occurrence. -/
theorem exists_split_of_mem (l : List Int) (t : Int) (h : t ∈ l) :
    ∃ l1 l2, l = l1 ++ t :: l2 ∧ t ∉ l1 := by
  induction l with
  | nil => simp at h
  | cons x xs ih =>
    by_cases hx : x = t
    · exact ⟨[], xs, by simp [hx], by simp⟩
    · have hm : t ∈ xs := by
        rcases List.mem_cons.mp h with e | e
        · exact absurd e.symm hx
        · exact e
      obtain ⟨l1, l2, e, hn⟩ := ih hm
      refine ⟨x :: l1, l2, by simp [e], ?_⟩
      simp only [List.mem_cons, not_or]
      exact ⟨fun e => hx e.symm, hn⟩

/-- Removing the element at the split point. -/
theorem removeAt_split (l1 l2 : List Int) (t : Int) :
    removeAt (l1 ++ t :: l2) (l1.length : Int) = l1 ++ l2 := by
  simp [removeAt]

/-- Removing the prefix up to and including the split point. -/
theorem removeRange_split (l1 l2 : List Int) (t : Int) :
    removeRange (l1 ++ t :: l2) 0 ((l1.length : Int) + 1) = l2 := by
  have h : ((l1.length : Int) + 1).toNat = l1.length + 1 := by omega
  simp [removeRange, h]

/-- A frame that is not an ack (a nack) changes nothing. -/
theorem handle_not_ack (d : QAmqpExchangePrivate) (frame : QAmqpMethodFrame)
    (h : frame.id ≠ bmAck) : d.handleAckOrNack frame = d := by
  simp [handleAckOrNack, h]

/-- An ack with tag 0 clears the set and raises allMessagesDelivered. -/
theorem handle_ack_zero (d : QAmqpExchangePrivate) (frame : QAmqpMethodFrame)
    (h : frame.id = bmAck) (h0 : ackTag frame = 0) :
    d.handleAckOrNack frame =
      ({ d with unconfirmedDeliveryTags := [] }).emit .allMessagesDelivered := by
  unfold ackTag at h0
  simp [handleAckOrNack, h, h0]

/-- An ack with a non-zero tag that is not outstanding changes nothing. -/
theorem handle_ack_absent (d : QAmqpExchangePrivate) (frame : QAmqpMethodFrame)
    (h : frame.id = bmAck) (h0 : ackTag frame ≠ 0)
    (hn : ackTag frame ∉ d.unconfirmedDeliveryTags) : d.handleAckOrNack frame = d := by
  unfold ackTag at h0 hn
  simp [handleAckOrNack, h, h0, indexOf_of_not_mem _ _ hn]

/-- An ack with a non-zero outstanding tag: the set loses the tag's first
occurrence, with everything before it when the ack is cumulative, and
allMessagesDelivered is raised if nothing is left. -/
theorem handle_ack_present (d : QAmqpExchangePrivate) (frame : QAmqpMethodFrame)
    (l1 l2 : List Int) (h : frame.id = bmAck) (h0 : ackTag frame ≠ 0)
    (hl : d.unconfirmedDeliveryTags = l1 ++ ackTag frame :: l2) (hn : ackTag frame ∉ l1) :
    d.handleAckOrNack frame =
      if (if ackMultiple frame then l2 else l1 ++ l2) = [] then
        ({ d with unconfirmedDeliveryTags :=
            if ackMultiple frame then l2 else l1 ++ l2 }).emit .allMessagesDelivered
      else
        { d with unconfirmedDeliveryTags := if ackMultiple frame then l2 else l1 ++ l2 } := by
  unfold ackTag at h0 hn hl
  unfold ackMultiple
  have hne : ¬ ((l1.length : Int) = -1) := by omega
  cases hm : (readBool (readLongLong frame.arguments).2).1 <;>
    simp [handleAckOrNack, h, h0, hl, indexOf_of_split _ _ _ hn, hne, hm,
      removeAt_split, removeRange_split, List.isEmpty_iff]

/-- In a strictly increasing vector, the tags above the split tag are the part
after it. -/
theorem filter_gt_split (l1 l2 : List Int) (T : Int)
    (h : (l1 ++ T :: l2).Pairwise (· < ·)) :
    (l1 ++ T :: l2).filter (fun t => decide (T < t)) = l2 := by
  rw [List.pairwise_append] at h
  obtain ⟨_, h2, h3⟩ := h
  rw [List.pairwise_cons] at h2
  have e1 : l1.filter (fun t => decide (T < t)) = [] := by
    rw [List.filter_eq_nil_iff]
    intro a ha
    have := h3 a ha T (List.mem_cons_self _ _)
    simp only [decide_eq_true_eq]; omega
  have e2 : l2.filter (fun t => decide (T < t)) = l2 := by
    rw [List.filter_eq_self]
    intro a ha
    simpa using h2.1 a ha
  simp [List.filter_append, List.filter_cons, e1, e2]

/-- C5, as stated, fails: with the tags 1, 3 outstanding, the cumulative ack of
tag 2 removes nothing, so tag 1 remains although it is below 2; and on a
vector that is out of order, 3, 1, 2, the cumulative ack of tag 1 removes tag 3
although it is above 1. -/
theorem C5_ack_multiple_counterexample :
    (logsOneThree.handleAckOrNack (ackFrame 1 2 true)).unconfirmedDeliveryTags = [1, 3] ∧
    logsOneThree.unconfirmedDeliveryTags.filter (fun t => decide (2 < t)) = [3] ∧
    (logsShuffled.handleAckOrNack (ackFrame 1 1 true)).unconfirmedDeliveryTags = [2] ∧
    logsShuffled.unconfirmedDeliveryTags.filter (fun t => decide (1 < t)) = [3, 2] := by
  decide

/-- C5, amended: for a non-zero tag T, the cumulative ack of T removes the
elements up to and including the first occurrence of T; so when the set is
strictly increasing and holds T, exactly the tags above T remain, in the same
order; and when T is not in the set, nothing changes. -/
theorem C5_ack_multiple (d : QAmqpExchangePrivate) (ch T : Int) (hT : T ≠ 0) :
    (∀ l1 l2, d.unconfirmedDeliveryTags = l1 ++ T :: l2 → T ∉ l1 →
      (d.handleAckOrNack (ackFrame ch T true)).unconfirmedDeliveryTags = l2) ∧
    (T ∈ d.unconfirmedDeliveryTags → d.unconfirmedDeliveryTags.Pairwise (· < ·) →
      (d.handleAckOrNack (ackFrame ch T true)).unconfirmedDeliveryTags =
        d.unconfirmedDeliveryTags.filter (fun t => decide (T < t))) ∧
    (T ∉ d.unconfirmedDeliveryTags → d.handleAckOrNack (ackFrame ch T true) = d) := by
  have hid : (ackFrame ch T true).id = bmAck := rfl
  have htag : ackTag (ackFrame ch T true) = T := rfl
  have hmul : ackMultiple (ackFrame ch T true) = true := rfl
  have key : ∀ l1 l2, d.unconfirmedDeliveryTags = l1 ++ T :: l2 → T ∉ l1 →
      (d.handleAckOrNack (ackFrame ch T true)).unconfirmedDeliveryTags = l2 := by
    intro l1 l2 hl hn
    rw [handle_ack_present d _ l1 l2 hid (by rw [htag]; exact hT) (by rw [htag]; exact hl)
      (by rw [htag]; exact hn), hmul]
    by_cases h2 : l2 = [] <;> simp [h2, QAmqpExchangePrivate.emit]
  refine ⟨key, ?_, ?_⟩
  · intro hmem hsorted
    obtain ⟨l1, l2, hl, hn⟩ := exists_split_of_mem _ _ hmem
    rw [key l1 l2 hl hn, hl, filter_gt_split]
    rw [← hl]; exact hsorted
  · intro hn
    exact handle_ack_absent d _ hid (by rw [htag]; exact hT) (by rw [htag]; exact hn)

/-- Witness of C5 amended: with the tags 1, 2, 3 outstanding, the cumulative
ack of tag 2 leaves tag 3. -/
theorem C5_ack_multiple_witness :
    (logsThree.handleAckOrNack (ackFrame 1 2 true)).unconfirmedDeliveryTags = [3] :=
  (C5_ack_multiple logsThree 1 2 (by decide)).2.1 (by decide) (by decide)

/-- C6: for a non-zero tag T, the single ack of T erases the first occurrence
of T from the unconfirmed set and keeps every other element in place (the set
splits as l1, T, l2 and becomes l1, l2; the number of occurrences of T drops by
one); when T is not in the set the whole exchange record is unchanged; in
both cases the error state is untouched and the only signal that may be raised
is allMessagesDelivered. -/
theorem C6_ack_single (d : QAmqpExchangePrivate) (ch T : Int) (hT : T ≠ 0) :
    (d.handleAckOrNack (ackFrame ch T false)).unconfirmedDeliveryTags =
      d.unconfirmedDeliveryTags.erase T ∧
    (∀ l1 l2, d.unconfirmedDeliveryTags = l1 ++ T :: l2 → T ∉ l1 →
      (d.handleAckOrNack (ackFrame ch T false)).unconfirmedDeliveryTags = l1 ++ l2) ∧
    (T ∈ d.unconfirmedDeliveryTags →
      (d.handleAckOrNack (ackFrame ch T false)).unconfirmedDeliveryTags.count T + 1 =
        d.unconfirmedDeliveryTags.count T) ∧
    (T ∉ d.unconfirmedDeliveryTags → d.handleAckOrNack (ackFrame ch T false) = d) ∧
    (d.handleAckOrNack (ackFrame ch T false)).error = d.error ∧
    (d.handleAckOrNack (ackFrame ch T false)).errorString = d.errorString ∧
    ((d.handleAckOrNack (ackFrame ch T false)).emitted = d.emitted ∨
      (d.handleAckOrNack (ackFrame ch T false)).emitted =
        d.emitted ++ [.allMessagesDelivered]) := by
  have hid : (ackFrame ch T false).id = bmAck := rfl
  have htag : ackTag (ackFrame ch T false) = T := rfl
  have hmul : ackMultiple (ackFrame ch T false) = false := rfl
  have habs : T ∉ d.unconfirmedDeliveryTags → d.handleAckOrNack (ackFrame ch T false) = d :=
    fun hn => handle_ack_absent d _ hid (by rw [htag]; exact hT) (by rw [htag]; exact hn)
  have hpres : ∀ l1 l2, d.unconfirmedDeliveryTags = l1 ++ T :: l2 → T ∉ l1 →
      d.handleAckOrNack (ackFrame ch T false) =
        if l1 ++ l2 = [] then
          ({ d with unconfirmedDeliveryTags := l1 ++ l2 }).emit .allMessagesDelivered
        else { d with unconfirmedDeliveryTags := l1 ++ l2 } := by
    intro l1 l2 hl hn
    rw [handle_ack_present d _ l1 l2 hid (by rw [htag]; exact hT) (by rw [htag]; exact hl)
      (by rw [htag]; exact hn), hmul]
    simp
  have key : ∀ l1 l2, d.unconfirmedDeliveryTags = l1 ++ T :: l2 → T ∉ l1 →
      (d.handleAckOrNack (ackFrame ch T false)).unconfirmedDeliveryTags = l1 ++ l2 := by
    intro l1 l2 hl hn
    rw [hpres l1 l2 hl hn]
    split <;> simp [QAmqpExchangePrivate.emit]
  have herase : (d.handleAckOrNack (ackFrame ch T false)).unconfirmedDeliveryTags =
      d.unconfirmedDeliveryTags.erase T := by
    by_cases hmem : T ∈ d.unconfirmedDeliveryTags
    · obtain ⟨l1, l2, hl, hn⟩ := exists_split_of_mem _ _ hmem
      rw [key l1 l2 hl hn, hl, List.erase_append_right _ hn, List.erase_cons_head]
    · rw [habs hmem, List.erase_of_not_mem hmem]
  refine ⟨herase, key, ?_, habs, ?_, ?_, ?_⟩
  · intro hmem
    rw [herase, List.count_erase_self]
    have : 0 < d.unconfirmedDeliveryTags.count T := List.count_pos_iff.mpr hmem
    omega
  all_goals
    by_cases hmem : T ∈ d.unconfirmedDeliveryTags
    · obtain ⟨l1, l2, hl, hn⟩ := exists_split_of_mem _ _ hmem
      rw [hpres l1 l2 hl hn]
      split <;> simp [QAmqpExchangePrivate.emit]
    · simp [habs hmem]

/-- Witness of C6: with the tags 1, 2, 3 outstanding, the single ack of tag 2
leaves 1, 3. -/
theorem C6_ack_single_witness :
    (logsThree.handleAckOrNack (ackFrame 1 2 false)).unconfirmedDeliveryTags = [1, 3] :=
  (C6_ack_single logsThree 1 2 (by decide)).1

/-- C7: an ack with delivery tag 0 leaves the unconfirmed set empty, for every
prior set and either value of the multiple flag. -/
theorem C7_ack_zero (d : QAmqpExchangePrivate) (ch : Int) (multiple : Bool) :
    (d.handleAckOrNack (ackFrame ch 0 multiple)).unconfirmedDeliveryTags = [] := by
  rw [handle_ack_zero d (ackFrame ch 0 multiple) rfl rfl]
  rfl

/-! ## The allMessagesDelivered signal -/

/-- Nothing happened. -/
theorem Quiet.refl (d : QAmqpExchangePrivate) : Quiet d d :=
  ⟨rfl, [], by simp, rfl⟩

/-- Quiet steps compose. -/
theorem Quiet.trans {a b c : QAmqpExchangePrivate} (h1 : Quiet a b) (h2 : Quiet b c) :
    Quiet a c := by
  obtain ⟨e1, n1, f1, c1⟩ := h1
  obtain ⟨e2, n2, f2, c2⟩ := h2
  refine ⟨e2.trans e1, n1 ++ n2, ?_, ?_⟩
  · rw [f2, f1, List.append_assoc]
  · rw [List.count_append, c1, c2]

/-- Raising another signal is quiet. -/
theorem quiet_of_emit (d : QAmqpExchangePrivate) (sig : Signal)
    (h : sig ≠ .allMessagesDelivered) : Quiet d (d.emit sig) := by
  refine ⟨rfl, [sig], rfl, ?_⟩
  rw [List.count_singleton]
  simp [h]

/-- A step that touches neither the set nor the signal log is quiet. -/
theorem quiet_of_same (d d1 : QAmqpExchangePrivate)
    (h1 : d1.unconfirmedDeliveryTags = d.unconfirmedDeliveryTags)
    (h2 : d1.emitted = d.emitted) : Quiet d d1 :=
  ⟨h1, [], by simp [h2], rfl⟩

/-- The private declare is quiet. -/
theorem quiet_declare (d : QAmqpExchangePrivate) : Quiet d d.declare := by
  apply quiet_of_same <;>
    (unfold QAmqpExchangePrivate.declare; split_ifs <;> rfl)

/-- The callback channelOpened is quiet. -/
theorem quiet_channelOpened (d : QAmqpExchangePrivate) :
    Quiet d (QAmqpExchange.channelOpened d) := by
  unfold QAmqpExchange.channelOpened
  by_cases hn : isEmpty d.name = true
  · rw [if_pos hn]
    exact (quiet_of_same d _ rfl rfl).trans (quiet_of_emit _ _ (by decide))
  · rw [if_neg hn]
    show Quiet d (if (d.newState .EX_UNDECLARED).delayedDeclare = true
      then (d.newState .EX_UNDECLARED).declare else d.newState .EX_UNDECLARED)
    split_ifs
    · exact (quiet_of_same d _ rfl rfl).trans (quiet_declare _)
    · exact quiet_of_same d _ rfl rfl

/-- Every call of the channel layer into this file is quiet. -/
theorem quiet_hook (d : QAmqpExchangePrivate) (hook : ChannelHook) :
    Quiet d (hook.run d) := by
  cases hook with
  | channelOpened => exact quiet_channelOpened d
  | channelClosed => exact quiet_of_same d _ rfl rfl
  | newState state =>
    apply quiet_of_same <;>
      (simp only [ChannelHook.run, newChannelState]; split_ifs <;> rfl)

/-- A sequence of calls of the channel layer is quiet. -/
theorem quiet_hooks (hooks : List ChannelHook) (d : QAmqpExchangePrivate) :
    Quiet d (hooks.foldl ChannelHook.run d) := by
  induction hooks generalizing d with
  | nil => exact Quiet.refl d
  | cons hook rest ih => exact (quiet_hook d hook).trans (ih _)

/-- The handler basicReturn is quiet. -/
theorem quiet_basicReturn (d : QAmqpExchangePrivate) (frame : QAmqpMethodFrame) :
    Quiet d (d.basicReturn frame) := by
  unfold basicReturn
  simp only
  split_ifs
  · exact (quiet_of_same d _ rfl rfl).trans (quiet_of_emit _ _ (by simp))
  · exact Quiet.refl d

/-- The dispatcher either hands an ack to handleAckOrNack or is quiet. -/
theorem q_method_cases (chan : ChannelLayer) (d : QAmqpExchangePrivate)
    (frame : QAmqpMethodFrame) :
    (chan frame = none ∧ frame.methodClass = .Basic ∧ frame.id = bmAck ∧
      (d._q_method chan frame).2 = d.handleAckOrNack frame) ∨
    (¬ (chan frame = none ∧ frame.methodClass = .Basic ∧ frame.id = bmAck) ∧
      Quiet d (d._q_method chan frame).2) := by
  unfold _q_method
  cases hc : chan frame with
  | some hooks =>
    right
    exact ⟨by simp, quiet_hooks hooks d⟩
  | none =>
    by_cases hb : frame.methodClass = .Basic
    · by_cases ha : frame.id = bmAck
      · left; simp [hb, ha]
      · right
        refine ⟨by simp [ha], ?_⟩
        simp only [hb, if_true, ha, false_or]
        split_ifs
        · rw [handle_not_ack d frame ha]; exact Quiet.refl d
        · exact quiet_basicReturn d frame
        · exact Quiet.refl d
    · right
      refine ⟨by simp [hb], ?_⟩
      simp only [hb, if_false]
      split_ifs
      · exact quiet_of_emit _ _ (by decide)
      · exact (quiet_of_same d _ rfl rfl).trans (quiet_of_emit _ _ (by decide))
      · exact (quiet_of_same d _ rfl rfl).trans (quiet_of_emit _ _ (by decide))
      · exact Quiet.refl d
      · exact Quiet.refl d

/-- C8, as stated, fails: with an empty unconfirmed set, an inbound ack with
delivery tag 0 raises allMessagesDelivered although the set was already empty
before the frame. -/
theorem C8_all_delivered_counterexample :
    logsDeclared.unconfirmedDeliveryTags = [] ∧
    (logsDeclared._q_method channelOnly (ackFrame 1 0 false)).2.emitted =
      logsDeclared.emitted ++ [.allMessagesDelivered] := by
  decide

/-- C8, amended: for every inbound method frame, every prior state and every
behaviour of the channel layer, allMessagesDelivered is raised exactly once if
the unconfirmed set was non-empty before the frame and is empty after it, and
also exactly once if the set was already empty and the frame is an ack with
delivery tag 0 that reaches the exchange's handler; otherwise it is not raised
at all. -/
theorem C8_all_delivered (chan : ChannelLayer) (d : QAmqpExchangePrivate)
    (frame : QAmqpMethodFrame) :
    ∃ new, (d._q_method chan frame).2.emitted = d.emitted ++ new ∧
      new.count .allMessagesDelivered =
        if (d.unconfirmedDeliveryTags ≠ [] ∧
              (d._q_method chan frame).2.unconfirmedDeliveryTags = []) ∨
            (d.unconfirmedDeliveryTags = [] ∧ chan frame = none ∧
              frame.methodClass = .Basic ∧ frame.id = bmAck ∧ ackTag frame = 0)
        then 1 else 0 := by
  rcases q_method_cases chan d frame with ⟨hc, hb, ha, he⟩ | ⟨hno, hq, new, hnew, hcount⟩
  · rw [he]
    by_cases h0 : ackTag frame = 0
    · rw [handle_ack_zero d frame ha h0]
      refine ⟨[.allMessagesDelivered], rfl, ?_⟩
      have : (d.unconfirmedDeliveryTags ≠ [] ∧
            (({ d with unconfirmedDeliveryTags := [] } : QAmqpExchangePrivate).emit
              .allMessagesDelivered).unconfirmedDeliveryTags = []) ∨
          (d.unconfirmedDeliveryTags = [] ∧ chan frame = none ∧
            frame.methodClass = .Basic ∧ frame.id = bmAck ∧ ackTag frame = 0) := by
        by_cases hd : d.unconfirmedDeliveryTags = []
        · exact Or.inr ⟨hd, hc, hb, ha, h0⟩
        · exact Or.inl ⟨hd, rfl⟩
      rw [if_pos this]; rfl
    · by_cases hmem : ackTag frame ∈ d.unconfirmedDeliveryTags
      · obtain ⟨l1, l2, hl, hn⟩ := exists_split_of_mem _ _ hmem
        have hne : d.unconfirmedDeliveryTags ≠ [] := by rw [hl]; simp
        rw [handle_ack_present d frame l1 l2 ha h0 hl hn]
        by_cases hr : (if ackMultiple frame then l2 else l1 ++ l2) = []
        · rw [if_pos hr]
          refine ⟨[.allMessagesDelivered], rfl, ?_⟩
          rw [if_pos (Or.inl ⟨hne, hr⟩)]; rfl
        · rw [if_neg hr]
          refine ⟨[], by simp, ?_⟩
          rw [if_neg]
          · rfl
          · rintro (⟨_, h⟩ | ⟨h, _⟩)
            · exact hr h
            · exact hne h
      · rw [handle_ack_absent d frame ha h0 hmem]
        refine ⟨[], by simp, ?_⟩
        rw [if_neg]
        · rfl
        · rintro (⟨h1, h2⟩ | ⟨_, _, _, _, h⟩)
          · exact h1 h2
          · exact h0 h
  · refine ⟨new, hnew, ?_⟩
    rw [hcount, if_neg]
    rintro (⟨h1, h2⟩ | ⟨_, h2, h3, h4, _⟩)
    · rw [hq] at h2; exact h1 h2
    · exact hno ⟨h2, h3, h4⟩

/-! ## Body frames -/

/-- The chunk count is the least number of chunks of `c` bytes that cover `n`
bytes: `j` chunks fall short exactly when `j` is below it. -/
theorem lt_chunkCount_iff (n c j : Nat) (hc : 0 < c) : j < chunkCount n c ↔ j * c < n := by
  unfold chunkCount
  rw [Nat.lt_iff_add_one_le, Nat.le_div_iff_mul_le hc, Nat.add_mul]
  omega

/-- Inside the body, `mid` at offset `j * c` with length `c` is chunk `j`. -/
theorem mid_chunk (message : QByteArray) (c j : Nat) (hc : 0 < c)
    (hj : j * c < message.length) :
    mid message ((j * c : Nat) : Int) (c : Int) = chunk message c j := by
  unfold mid chunk
  have h1 : ¬ (((j * c : Nat) : Int) > (message.length : Int)) := by omega
  have h2 : ¬ (((j * c : Nat) : Int) < 0) := by omega
  simp only [h1, h2, if_false]
  by_cases h3 : (c : Int) < 0 ∨ (c : Int) > (message.length : Int) - ((j * c : Nat) : Int)
  · rw [if_pos h3]
    simp only [Int.toNat_ofNat]
    rw [List.take_of_length_le]
    rw [List.length_drop]
    omega
  · rw [if_neg h3]
    simp only [Int.toNat_ofNat]

/-- The loop entered at offset `j * c` with `m` chunks to go sends these `m`
chunks and ends, as soon as the fuel exceeds `m`. -/
theorem bodyLoop_chunks (message : QByteArray) (c : Nat) (hc : 0 < c) :
    ∀ (m j fuel : Nat) (d : QAmqpExchangePrivate), d.frameMax - 7 = (c : Int) →
      j + m = chunkCount message.length c → m < fuel →
      QAmqpExchange.bodyLoop fuel d message (message.length : Int) ((j * c : Nat) : Int) =
        some { d with sent := d.sent ++
          (List.range' j m).map (fun i => Frame.contentBody d.channelNumber (chunk message c i)) } := by
  intro m
  induction m with
  | zero =>
    intro j fuel d _ hj hfuel
    obtain ⟨f, rfl⟩ : ∃ f, fuel = f + 1 := ⟨fuel - 1, by omega⟩
    have hge : ¬ (j * c < message.length) := by
      rw [← lt_chunkCount_iff _ _ _ hc]; omega
    have hge2 : ¬ (((j * c : Nat) : Int) < (message.length : Int)) := by omega
    unfold QAmqpExchange.bodyLoop
    rw [if_neg hge2]
    simp
  | succ m ih =>
    intro j fuel d hd hj hfuel
    obtain ⟨f, rfl⟩ : ∃ f, fuel = f + 1 := ⟨fuel - 1, by omega⟩
    have hlt : j * c < message.length := by
      rw [← lt_chunkCount_iff _ _ _ hc]; omega
    have hlt2 : ((j * c : Nat) : Int) < (message.length : Int) := by omega
    have hnext : ((j * c : Nat) : Int) + (c : Int) = (((j + 1) * c : Nat) : Int) := by
      push_cast; ring
    unfold QAmqpExchange.bodyLoop
    rw [if_pos hlt2]
    simp only [QAmqpExchangePrivate.sendFrame, hd, mid_chunk message c j hc hlt, hnext]
    have hrec := ih (j + 1) f (d.sendFrame (.contentBody d.channelNumber (chunk message c j)))
      hd (by omega) (by omega)
    simp only [QAmqpExchangePrivate.sendFrame] at hrec
    rw [hrec]
    simp [List.range'_succ]

/-- The number of chunks. -/
theorem chunks_length (message : QByteArray) (c : Nat) :
    (chunks message c).length = chunkCount message.length c := by
  simp [chunks]

/-- The size of a chunk: `c`, or what is left of the body. -/
theorem chunk_length (message : QByteArray) (c i : Nat) :
    (chunk message c i).length = min c (message.length - i * c) := by
  simp [chunk, List.length_take, List.length_drop]

/-- The chunks cover the body. -/
theorem chunkCount_mul_ge (n c : Nat) (hc : 0 < c) : n ≤ chunkCount n c * c := by
  have h := lt_chunkCount_iff n c (chunkCount n c) hc
  omega

/-- Chunks `j` to `j + m - 1` put together are `m * c` bytes from offset
`j * c`. -/
theorem flatten_chunks_range (message : QByteArray) (c : Nat) :
    ∀ m j, ((List.range' j m).map (chunk message c)).flatten =
      (message.drop (j * c)).take (m * c) := by
  intro m
  induction m with
  | zero => intro j; simp
  | succ m ih =>
    intro j
    rw [List.range'_succ, List.map_cons, List.flatten_cons, ih (j + 1)]
    have e1 : (m + 1) * c = c + m * c := by ring
    have e2 : (j + 1) * c = j * c + c := by ring
    rw [e1, List.take_add, e2, ← List.drop_drop]
    rfl

/-- The chunks put together are the body. -/
theorem chunks_flatten (message : QByteArray) (c : Nat) (hc : 0 < c) :
    (chunks message c).flatten = message := by
  unfold chunks
  rw [List.range_eq_range', flatten_chunks_range]
  simp only [Nat.zero_mul, List.drop_zero]
  exact List.take_of_length_le (chunkCount_mul_ge _ _ hc)

/-- The entry `i` of the chunk list. -/
theorem chunks_getElem (message : QByteArray) (c i : Nat)
    (h : i < chunkCount message.length c) :
    (chunks message c)[i]? = some (chunk message c i) := by
  simp [chunks, List.getElem?_range h]

/-- An empty body has no chunk. -/
theorem chunks_nil (c : Nat) (hc : 0 < c) : chunks [] c = [] := by
  have h : chunkCount 0 c = 0 := by
    unfold chunkCount
    exact Nat.div_eq_of_lt (by omega)
  simp [chunks, h]

/-- A body of `2 * c + 1` bytes has three chunks, of `c`, `c` and 1 bytes. -/
theorem chunks_sizes_two_and_one (message : QByteArray) (c : Nat) (hc : 0 < c)
    (hn : message.length = 2 * c + 1) : (chunks message c).map List.length = [c, c, 1] := by
  have hk : chunkCount message.length c = 3 := by
    unfold chunkCount
    have : message.length + c - 1 = 3 * c := by omega
    rw [this, Nat.mul_div_cancel _ hc]
  have hr : List.range 3 = [0, 1, 2] := by decide
  unfold chunks
  rw [hk, hr]
  simp only [List.map_cons, List.map_nil, chunk_length, hn]
  have h0 : min c (2 * c + 1 - 0 * c) = c := by omega
  have h1 : min c (2 * c + 1 - 1 * c) = c := by omega
  have h2 : min c (2 * c + 1 - 2 * c) = 1 := by omega
  rw [h0, h1, h2]

/-- With a frame size above 7 and more fuel than the body has bytes, the body
loop ends, having sent one body frame per chunk, in order. -/
theorem bodyLoop_eq (d : QAmqpExchangePrivate) (message : QByteArray) (fuel : Nat)
    (hmax : 7 < d.frameMax) (hfuel : message.length < fuel) :
    QAmqpExchange.bodyLoop fuel d message (message.length : Int) 0 =
      some { d with sent := d.sent ++
        (chunks message (d.frameMax - 7).toNat).map (Frame.contentBody d.channelNumber) } := by
  have hc : 0 < (d.frameMax - 7).toNat := by omega
  have hd : d.frameMax - 7 = ((d.frameMax - 7).toNat : Int) := by omega
  have hle : chunkCount message.length (d.frameMax - 7).toNat ≤ message.length := by
    by_contra hcon
    have := (lt_chunkCount_iff message.length (d.frameMax - 7).toNat message.length hc).mp
      (by omega)
    nlinarith
  have h := bodyLoop_chunks message (d.frameMax - 7).toNat hc
    (chunkCount message.length (d.frameMax - 7).toNat) 0 fuel d hd (by simp) (by omega)
  simp only [Nat.zero_mul, Nat.cast_zero] at h
  rw [h, chunks, List.range_eq_range', List.map_map]
  rfl

/-- A publish in state declared with a frame size above 7 returns: the tag
bookkeeping is done and the method frame, the header frame and the body frames
are sent, in this order. -/
theorem publishFuel_declared (d : QAmqpExchangePrivate) (message : QByteArray)
    (routingKey mimeType : String) (headers : QAmqpTable) (properties : PropertyHash)
    (publishOptions : Int) (fuel : Nat) (hstate : d.exchangeState = .EX_DECLARED)
    (hmax : 7 < d.frameMax) (hfuel : message.length < fuel) :
    QAmqpExchange.publishFuel fuel d message routingKey mimeType headers properties
        publishOptions =
      some { d with
        unconfirmedDeliveryTags :=
          if d.nextDeliveryTag > 0 then d.unconfirmedDeliveryTags ++ [d.nextDeliveryTag]
          else d.unconfirmedDeliveryTags,
        nextDeliveryTag :=
          if d.nextDeliveryTag > 0 then d.nextDeliveryTag + 1 else d.nextDeliveryTag,
        sent := d.sent ++
          [.method (QAmqpExchange.publishFrame d routingKey publishOptions),
           QAmqpExchange.contentFrame d message mimeType headers properties] ++
          (chunks message (d.frameMax - 7).toNat).map (Frame.contentBody d.channelNumber) } := by
  unfold QAmqpExchange.publishFuel
  rw [if_neg (by simp [hstate])]
  simp only
  rw [bodyLoop_eq _ _ _ (by split_ifs <;> exact hmax) hfuel]
  by_cases htag : d.nextDeliveryTag > 0 <;>
    simp [htag, QAmqpExchangePrivate.sendFrame, QAmqpExchange.publishFrame,
      QAmqpExchange.contentFrame]

/-- C9: for a frame size of c + 7 with c positive, a publish in state declared
returns (once the fuel exceeds the body length) and the frames it sends after
the method and header frames are the body frames of the consecutive chunks of
c bytes, in order; there are body length / c rounded up of them; every chunk
but the last has exactly c bytes; the last has between 1 and c bytes; put
together they are the body; and a body of 2 * c + 1 bytes gives exactly three
chunks, of c, c and 1 bytes. -/
theorem C9_body_chunks (d : QAmqpExchangePrivate) (message : QByteArray)
    (routingKey mimeType : String) (headers : QAmqpTable) (properties : PropertyHash)
    (publishOptions : Int) (fuel c : Nat) (hstate : d.exchangeState = .EX_DECLARED)
    (hc : 0 < c) (hmax : d.frameMax = (c : Int) + 7) (hfuel : message.length < fuel) :
    (∃ d1, QAmqpExchange.publishFuel fuel d message routingKey mimeType headers properties
        publishOptions = some d1 ∧
      d1.sent.drop (d.sent.length + 2) =
        (chunks message c).map (Frame.contentBody d.channelNumber)) ∧
    (chunks message c).length = (message.length + c - 1) / c ∧
    (∀ j, j < (chunks message c).length ↔ j * c < message.length) ∧
    (∀ i, i < (chunks message c).length →
      (chunks message c)[i]? = some ((message.drop (i * c)).take c)) ∧
    (∀ i, i + 1 < (chunks message c).length → ((message.drop (i * c)).take c).length = c) ∧
    (∀ i, i + 1 = (chunks message c).length →
      1 ≤ ((message.drop (i * c)).take c).length ∧
      ((message.drop (i * c)).take c).length ≤ c) ∧
    (chunks message c).flatten = message ∧
    (message.length = 2 * c + 1 → (chunks message c).map List.length = [c, c, 1]) := by
  have hcc : (d.frameMax - 7).toNat = c := by omega
  have hiff : ∀ j, j < (chunks message c).length ↔ j * c < message.length := by
    intro j; rw [chunks_length]; exact lt_chunkCount_iff _ _ _ hc
  have hlen : ∀ i, ((message.drop (i * c)).take c).length = min c (message.length - i * c) :=
    fun i => chunk_length message c i
  refine ⟨?_, ?_, hiff, ?_, ?_, ?_, chunks_flatten message c hc,
    chunks_sizes_two_and_one message c hc⟩
  · refine ⟨_, publishFuel_declared d message routingKey mimeType headers properties
      publishOptions fuel hstate (by omega) hfuel, ?_⟩
    simp [hcc]
  · rw [chunks_length]; rfl
  · intro i hi
    rw [chunks_length] at hi
    exact chunks_getElem message c i hi
  · intro i hi
    have := (hiff (i + 1)).mp hi
    rw [hlen, Nat.add_mul] at *
    omega
  · intro i hi
    have := (hiff i).mp (by omega)
    rw [hlen]
    omega

/-- Witness of C9: a body of five bytes published with a frame size of 9. -/
theorem C9_body_chunks_witness :
    ∃ d1, QAmqpExchange.publishFuel 6 logsSmallFrames [1, 2, 3, 4, 5] "rk" "text.plain" [] [] 0 =
        some d1 ∧
      d1.sent.drop (logsSmallFrames.sent.length + 2) =
        (chunks [1, 2, 3, 4, 5] 2).map (Frame.contentBody logsSmallFrames.channelNumber) :=
  (C9_body_chunks logsSmallFrames [1, 2, 3, 4, 5] "rk" "text.plain" [] [] 0 6 2
    (by decide) (by decide) (by decide) (by decide)).1

/-- C10: a publish in state declared with a frame size above 7 returns (with
any fuel above the body length, and so when run to completion), and the frames
it sends are, in this order, one basic.publish method frame, one
content-header frame whose body size is the body length, and the body frames
of the chunks; for an empty body these are exactly the two frames. -/
theorem C10_publish_frames (d : QAmqpExchangePrivate) (message : QByteArray)
    (routingKey mimeType : String) (headers : QAmqpTable) (properties : PropertyHash)
    (publishOptions : Int) (fuel : Nat) (hstate : d.exchangeState = .EX_DECLARED)
    (hmax : 7 < d.frameMax) (hfuel : message.length < fuel) :
    ∃ d1, QAmqpExchange.publishFuel fuel d message routingKey mimeType headers properties
        publishOptions = some d1 ∧
      QAmqpExchange.publish d message routingKey mimeType headers properties publishOptions =
        some d1 ∧
      d1.sent = d.sent ++
        [.method { methodClass := .Basic, id := bmPublish, channel := d.channelNumber,
                   arguments := [.short 0, .shortString d.name, .shortString routingKey,
                                 .octet (qint8 publishOptions)] },
         .content .Basic d.channelNumber
           (QAmqpExchange.contentProperties mimeType headers properties)
           (message.length : Int)] ++
        (chunks message (d.frameMax - 7).toNat).map (Frame.contentBody d.channelNumber) ∧
      (message = [] →
        d1.sent = d.sent ++
          [.method { methodClass := .Basic, id := bmPublish, channel := d.channelNumber,
                     arguments := [.short 0, .shortString d.name, .shortString routingKey,
                                   .octet (qint8 publishOptions)] },
           .content .Basic d.channelNumber
             (QAmqpExchange.contentProperties mimeType headers properties) 0]) := by
  have hq : qint16 0 = 0 := by decide
  refine ⟨_, publishFuel_declared d message routingKey mimeType headers properties
    publishOptions fuel hstate hmax hfuel, ?_, ?_, ?_⟩
  · unfold QAmqpExchange.publish
    exact publishFuel_declared d message routingKey mimeType headers properties
      publishOptions _ hstate hmax (by omega)
  · simp [QAmqpExchange.publishFrame, QAmqpExchange.contentFrame, hq]
  · intro hnil
    subst hnil
    simp [QAmqpExchange.publishFrame, QAmqpExchange.contentFrame, hq,
      chunks_nil _ (show 0 < (d.frameMax - 7).toNat by omega)]

/-- Witness of C10: an empty body published on the exchange "logs" gives two
frames. -/
theorem C10_publish_frames_witness :
    ∃ d1, QAmqpExchange.publishFuel 1 logsDeclared [] "rk" "text.plain" [] [] 0 = some d1 ∧
      QAmqpExchange.publish logsDeclared [] "rk" "text.plain" [] [] 0 = some d1 ∧
      d1.sent.length = 2 := by
  obtain ⟨d1, h1, h2, _, h4⟩ := C10_publish_frames logsDeclared [] "rk" "text.plain" [] [] 0 1
    (by decide) (by decide) (by decide)
  exact ⟨d1, h1, h2, by rw [h4 rfl]; rfl⟩

/-! ## Delivery tags -/

/-- A body loop that ends has only added frames to the log. -/
theorem bodyLoop_some_eq (message : QByteArray) (n : Int) :
    ∀ (fuel : Nat) (d d1 : QAmqpExchangePrivate) (s : Int),
      QAmqpExchange.bodyLoop fuel d message n s = some d1 →
      ∃ frames, d1 = { d with sent := d.sent ++ frames } := by
  intro fuel
  induction fuel with
  | zero => intro d d1 s h; simp [QAmqpExchange.bodyLoop] at h
  | succ f ih =>
    intro d d1 s h
    unfold QAmqpExchange.bodyLoop at h
    by_cases hlt : s < n
    · rw [if_pos hlt] at h
      obtain ⟨frames, e⟩ := ih _ _ _ h
      refine ⟨Frame.contentBody d.channelNumber (mid message s (d.frameMax - 7)) :: frames, ?_⟩
      rw [e]
      simp [QAmqpExchangePrivate.sendFrame]
    · rw [if_neg hlt] at h
      refine ⟨[], ?_⟩
      simp only [Option.some.injEq] at h
      simp [← h]

/-- The tag bookkeeping of a publish that returns, in state declared and for
any frame size. -/
theorem publish_fields (d d1 : QAmqpExchangePrivate) (message : QByteArray)
    (routingKey mimeType : String) (headers : QAmqpTable) (properties : PropertyHash)
    (publishOptions : Int) (hstate : d.exchangeState = .EX_DECLARED)
    (h : QAmqpExchange.publish d message routingKey mimeType headers properties
      publishOptions = some d1) :
    d1.exchangeState = .EX_DECLARED ∧ d1.frameMax = d.frameMax ∧
    d1.nextDeliveryTag =
      (if d.nextDeliveryTag > 0 then d.nextDeliveryTag + 1 else d.nextDeliveryTag) ∧
    d1.unconfirmedDeliveryTags =
      (if d.nextDeliveryTag > 0 then d.unconfirmedDeliveryTags ++ [d.nextDeliveryTag]
       else d.unconfirmedDeliveryTags) := by
  unfold QAmqpExchange.publish QAmqpExchange.publishFuel at h
  rw [if_neg (by simp [hstate])] at h
  obtain ⟨frames, e⟩ := bodyLoop_some_eq _ _ _ _ _ _ h
  rw [e]
  by_cases htag : d.nextDeliveryTag > 0 <;>
    simp [htag, QAmqpExchangePrivate.sendFrame, hstate]

/-- The ack and nack handler leaves state, frame size and tag counter alone. -/
theorem handle_fields (d : QAmqpExchangePrivate) (frame : QAmqpMethodFrame) :
    (d.handleAckOrNack frame).exchangeState = d.exchangeState ∧
    (d.handleAckOrNack frame).frameMax = d.frameMax ∧
    (d.handleAckOrNack frame).nextDeliveryTag = d.nextDeliveryTag := by
  by_cases ha : frame.id = bmAck
  · by_cases h0 : ackTag frame = 0
    · rw [handle_ack_zero d frame ha h0]; exact ⟨rfl, rfl, rfl⟩
    · by_cases hmem : ackTag frame ∈ d.unconfirmedDeliveryTags
      · obtain ⟨l1, l2, hl, hn⟩ := exists_split_of_mem _ _ hmem
        rw [handle_ack_present d frame l1 l2 ha h0 hl hn]
        split_ifs <;> exact ⟨rfl, rfl, rfl⟩
      · rw [handle_ack_absent d frame ha h0 hmem]; exact ⟨rfl, rfl, rfl⟩
  · rw [handle_not_ack d frame ha]; exact ⟨rfl, rfl, rfl⟩

/-- The return handler leaves state, frame size and tag counter alone. -/
theorem basicReturn_fields (d : QAmqpExchangePrivate) (frame : QAmqpMethodFrame) :
    (d.basicReturn frame).exchangeState = d.exchangeState ∧
    (d.basicReturn frame).frameMax = d.frameMax ∧
    (d.basicReturn frame).nextDeliveryTag = d.nextDeliveryTag := by
  unfold basicReturn
  simp only
  split_ifs <;> exact ⟨rfl, rfl, rfl⟩

/-- An inbound frame of class Basic that reaches the exchange leaves state,
frame size and tag counter alone. -/
theorem basic_frame_fields (chan : ChannelLayer) (d : QAmqpExchangePrivate)
    (frame : QAmqpMethodFrame) (hc : chan frame = none) (hb : frame.methodClass = .Basic) :
    (d._q_method chan frame).2.exchangeState = d.exchangeState ∧
    (d._q_method chan frame).2.frameMax = d.frameMax ∧
    (d._q_method chan frame).2.nextDeliveryTag = d.nextDeliveryTag := by
  unfold _q_method
  simp only [hc, hb, if_true]
  split_ifs
  · exact handle_fields d frame
  · exact basicReturn_fields d frame
  · exact ⟨rfl, rfl, rfl⟩

/-- Confirm traffic from a declared exchange whose tag counter is `k + 1`:
the run returns when the frame size is above 7, and whenever it returns the
exchange is still declared and the counter has advanced by the number of
publishes. -/
theorem run_confirm_traffic (chan : ChannelLayer) (F : Int) :
    ∀ (ops : List Op) (d : QAmqpExchangePrivate) (k : Nat),
      d.exchangeState = .EX_DECLARED → d.nextDeliveryTag = (k : Int) + 1 → d.frameMax = F →
      (∀ op ∈ ops, op.isConfirmTraffic chan = true) →
      (7 < F → ∃ dn, run chan d ops = some dn) ∧
      (∀ dn, run chan d ops = some dn →
        dn.exchangeState = .EX_DECLARED ∧
        dn.nextDeliveryTag = ((k + countPublish ops : Nat) : Int) + 1 ∧ dn.frameMax = F) := by
  intro ops
  induction ops with
  | nil =>
    intro d k hs ht hf _
    refine ⟨fun _ => ⟨d, rfl⟩, ?_⟩
    intro dn h
    simp only [run, Option.some.injEq] at h
    subst h
    exact ⟨hs, by simpa [countPublish] using ht, hf⟩
  | cons op ops ih =>
    intro d k hs ht hf hops
    have hop := hops op (List.mem_cons_self _ _)
    have hrest : ∀ o ∈ ops, o.isConfirmTraffic chan = true :=
      fun o ho => hops o (List.mem_cons_of_mem _ ho)
    cases op with
    | publish message routingKey mimeType headers properties publishOptions =>
      have hcount : countPublish
          (Op.publish message routingKey mimeType headers properties publishOptions :: ops) =
          countPublish ops + 1 := by
        simp [countPublish, Op.isPublish]
      have hpos : d.nextDeliveryTag > 0 := by omega
      have hnext : ∀ d1, QAmqpExchange.publish d message routingKey mimeType headers properties
          publishOptions = some d1 →
          d1.exchangeState = .EX_DECLARED ∧ d1.nextDeliveryTag = ((k + 1 : Nat) : Int) + 1 ∧
          d1.frameMax = F := by
        intro d1 h1
        obtain ⟨a, b, c, _⟩ := publish_fields d d1 _ _ _ _ _ _ hs h1
        rw [if_pos hpos] at c
        exact ⟨a, by rw [c, ht]; push_cast; ring, by rw [b, hf]⟩
      constructor
      · intro hF
        have h1 : QAmqpExchange.publish d message routingKey mimeType headers properties
            publishOptions = some _ :=
          publishFuel_declared d message routingKey mimeType headers properties publishOptions
            (message.length + 1) hs (by omega) (by omega)
        obtain ⟨a, b, c⟩ := hnext _ h1
        obtain ⟨dn, hdn⟩ := (ih _ (k + 1) a b c hrest).1 hF
        exact ⟨dn, by simp only [run, step, h1, Option.bind_some]; exact hdn⟩
      · intro dn h
        simp only [run, step] at h
        obtain ⟨d1, h1, h2⟩ := Option.bind_eq_some.mp h
        obtain ⟨a, b, c⟩ := hnext d1 h1
        have := (ih d1 (k + 1) a b c hrest).2 dn h2
        rw [hcount]
        have e : k + (countPublish ops + 1) = k + 1 + countPublish ops := by omega
        rw [e]
        exact this
    | method frame =>
      simp only [Op.isConfirmTraffic, Bool.and_eq_true, Option.isNone_iff_eq_none,
        decide_eq_true_eq] at hop
      obtain ⟨a, b, c⟩ := basic_frame_fields chan d frame hop.1 hop.2
      have hcount : countPublish (Op.method frame :: ops) = countPublish ops := by
        simp [countPublish, Op.isPublish]
      have := ih (d._q_method chan frame).2 k (by rw [a, hs]) (by rw [c, ht]) (by rw [b, hf])
        hrest
      rw [hcount]
      simpa only [run, step, Option.bind_some] using this
    | declare _ _ _ => simp [Op.isConfirmTraffic] at hop
    | declareType _ _ _ => simp [Op.isConfirmTraffic] at hop
    | remove _ => simp [Op.isConfirmTraffic] at hop
    | enableConfirms _ => simp [Op.isConfirmTraffic] at hop
    | channelOpened => simp [Op.isConfirmTraffic] at hop
    | channelClosed => simp [Op.isConfirmTraffic] at hop
    | disconnected => simp [Op.isConfirmTraffic] at hop

/-- Running a sequence in two parts. -/
theorem run_append (chan : ChannelLayer) :
    ∀ (xs ys : List Op) (d : QAmqpExchangePrivate),
      run chan d (xs ++ ys) = (run chan d xs).bind (fun d1 => run chan d1 ys) := by
  intro xs
  induction xs with
  | nil => intro ys d; rfl
  | cons x xs ih =>
    intro ys d
    simp only [List.cons_append, run]
    cases step chan d x with
    | none => rfl
    | some d1 => simpa using ih ys d1

/-- C4: from a declared exchange with nextDeliveryTag 0, after enableConfirms,
take any sequence of publishes interleaved with inbound acks, nacks and
returns.  It runs to its end when the frame size is above 7; and whenever it
runs to its end, the exchange is still declared, nextDeliveryTag is the number
n of publishes plus one, and each publish of the sequence, the k-th say (k - 1
publishes come before it), is entered with the effects of what comes before
it and appends exactly the tag k to the unconfirmed set, moving the counter
to k + 1. -/
theorem C4_delivery_tags (chan : ChannelLayer) (d : QAmqpExchangePrivate) (noWait : Bool)
    (ops : List Op) (hstate : d.exchangeState = .EX_DECLARED) (htag : d.nextDeliveryTag = 0)
    (hops : ∀ op ∈ ops, op.isConfirmTraffic chan = true) :
    (7 < d.frameMax → ∃ dn, run chan (QAmqpExchange.enableConfirms d noWait) ops = some dn) ∧
    (∀ dn, run chan (QAmqpExchange.enableConfirms d noWait) ops = some dn →
      dn.exchangeState = .EX_DECLARED ∧
      dn.nextDeliveryTag = (countPublish ops : Int) + 1 ∧
      ∀ before after message routingKey mimeType headers properties publishOptions,
        ops = before ++
          Op.publish message routingKey mimeType headers properties publishOptions :: after →
        ∃ dk d1, run chan (QAmqpExchange.enableConfirms d noWait) before = some dk ∧
          QAmqpExchange.publish dk message routingKey mimeType headers properties
            publishOptions = some d1 ∧
          run chan d1 after = some dn ∧
          d1.unconfirmedDeliveryTags =
            dk.unconfirmedDeliveryTags ++ [(countPublish before : Int) + 1] ∧
          d1.nextDeliveryTag = (countPublish before : Int) + 2) := by
  have h0 : (QAmqpExchange.enableConfirms d noWait).exchangeState = .EX_DECLARED ∧
      (QAmqpExchange.enableConfirms d noWait).nextDeliveryTag = ((0 : Nat) : Int) + 1 ∧
      (QAmqpExchange.enableConfirms d noWait).frameMax = d.frameMax := by
    simp [QAmqpExchange.enableConfirms, hstate, htag, QAmqpExchangePrivate.sendFrame]
  obtain ⟨hex, hrun⟩ := run_confirm_traffic chan d.frameMax ops _ 0 h0.1 h0.2.1 h0.2.2 hops
  refine ⟨hex, ?_⟩
  intro dn hdn
  obtain ⟨a, b, _⟩ := hrun dn hdn
  rw [Nat.zero_add] at b
  refine ⟨a, b, ?_⟩
  intro before after message routingKey mimeType headers properties publishOptions hsplit
  subst hsplit
  rw [run_append] at hdn
  obtain ⟨dk, hk, hrest⟩ := Option.bind_eq_some.mp hdn
  simp only [run, step] at hrest
  obtain ⟨d1, h1, h2⟩ := Option.bind_eq_some.mp hrest
  have hbefore : ∀ op ∈ before, op.isConfirmTraffic chan = true :=
    fun op hop => hops op (List.mem_append_left _ hop)
  obtain ⟨ak, bk, _⟩ :=
    (run_confirm_traffic chan d.frameMax before _ 0 h0.1 h0.2.1 h0.2.2 hbefore).2 dk hk
  rw [Nat.zero_add] at bk
  obtain ⟨_, _, c, e⟩ := publish_fields dk d1 _ _ _ _ _ _ ak h1
  have hpos : dk.nextDeliveryTag > 0 := by omega
  rw [if_pos hpos] at c e
  exact ⟨dk, d1, hk, h1, h2, by rw [e, bk], by rw [c, bk]; ring⟩

/-- Witness of C4: on the exchange "logs", enableConfirms followed by two
publishes with an ack and a nack in between leaves nextDeliveryTag at 3. -/
theorem C4_delivery_tags_witness :
    ∃ dn, run channelOnly (QAmqpExchange.enableConfirms logsDeclared false)
        confirmTrafficSample = some dn ∧
      dn.nextDeliveryTag = 3 := by
  have h := C4_delivery_tags channelOnly logsDeclared false confirmTrafficSample
    (by decide) (by decide) (by decide)
  obtain ⟨dn, hdn⟩ := h.1 (by decide)
  exact ⟨dn, hdn, (h.2 dn hdn).2.1⟩

/-! ## Refused calls -/

/-- C11: in every state other than declared, publish returns at once with
the exchange record unchanged, and so does enableConfirms: no frame is sent, no
signal is raised, and the state, nextDeliveryTag, the unconfirmed set and the
delayed-declare flag are as before. -/
theorem C11_refused_when_not_declared (d : QAmqpExchangePrivate) (message : QByteArray)
    (routingKey mimeType : String) (headers : QAmqpTable) (properties : PropertyHash)
    (publishOptions : Int) (noWait : Bool) (fuel : Nat)
    (hstate : d.exchangeState ≠ .EX_DECLARED) :
    QAmqpExchange.publish d message routingKey mimeType headers properties publishOptions =
      some d ∧
    QAmqpExchange.publishFuel fuel d message routingKey mimeType headers properties
      publishOptions = some d ∧
    QAmqpExchange.publishBytes d message routingKey mimeType properties publishOptions =
      some d ∧
    QAmqpExchange.enableConfirms d noWait = d := by
  simp [QAmqpExchange.publish, QAmqpExchange.publishBytes, QAmqpExchange.publishFuel,
    QAmqpExchange.enableConfirms, hstate]

/-- Witness of C11: a publish and an enableConfirms on the exchange "logs"
while its declare is in flight. -/
theorem C11_refused_when_not_declared_witness :
    QAmqpExchange.publish logsDeclaring [104, 105] "rk" "text.plain" [] [] 0 =
      some logsDeclaring ∧
    QAmqpExchange.enableConfirms logsDeclaring false = logsDeclaring :=
  have h := C11_refused_when_not_declared logsDeclaring [104, 105] "rk" "text.plain" [] [] 0
    false 0 (by decide)
  ⟨h.1, h.2.2.2⟩

/-- A frame of class Exchange that reaches the exchange goes to declareOk or
deleteOk by its id. -/
theorem q_method_exchange (chan : ChannelLayer) (d : QAmqpExchangePrivate)
    (frame : QAmqpMethodFrame) (hc : chan frame = none) (hcl : frame.methodClass = .Exchange) :
    d._q_method chan frame =
      (true, if frame.id = miDeclareOk then d.declareOk frame
             else if frame.id = miDeleteOk then d.deleteOk frame else d) := by
  unfold _q_method
  rw [hc]
  simp only [hcl]
  split_ifs <;> simp_all

/-- A frame of class Basic that reaches the exchange goes to handleAckOrNack
or basicReturn by its id. -/
theorem q_method_basic (chan : ChannelLayer) (d : QAmqpExchangePrivate)
    (frame : QAmqpMethodFrame) (hc : chan frame = none) (hcl : frame.methodClass = .Basic) :
    d._q_method chan frame =
      (true, if frame.id = bmAck ∨ frame.id = bmNack then d.handleAckOrNack frame
             else if frame.id = bmReturn then d.basicReturn frame else d) := by
  unfold _q_method
  rw [hc]
  simp only [hcl]
  split_ifs <;> simp_all

/-- The confirm.select-ok frame that reaches the exchange raises
confirmsEnabled. -/
theorem q_method_confirmOk (chan : ChannelLayer) (d : QAmqpExchangePrivate) (ch : Int)
    (hc : chan (confirmOkFrame ch) = none) :
    d._q_method chan (confirmOkFrame ch) = (true, d.emit .confirmsEnabled) := by
  unfold _q_method
  rw [hc]
  simp [confirmOkFrame]

/-- C12: remove sends an exchange.delete frame exactly when the state is
declared.  In state declared it sends exactly one (with the exchange name and
the options) and changes nothing else, so the state stays declared; the
delete-ok frame then moves the state to undeclared and raises removed.  In
every other state it sends nothing, keeps the state, and leaves the
delayed-declare flag false, changing nothing else. -/
theorem C12_remove (chan : ChannelLayer) (d : QAmqpExchangePrivate) (options : Int) :
    (d.exchangeState = .EX_DECLARED →
      QAmqpExchange.remove d options =
        { d with sent := d.sent ++
          [.method { methodClass := .Exchange, id := miDelete, channel := d.channelNumber,
                     arguments := [.short 0, .shortString d.name, .octet (qint8 options)] }] } ∧
      (QAmqpExchange.remove d options).exchangeState = .EX_DECLARED ∧
      (chan (deleteOkFrame d.channelNumber) = none →
        ((QAmqpExchange.remove d options)._q_method chan
          (deleteOkFrame d.channelNumber)).2.exchangeState = .EX_UNDECLARED ∧
        ((QAmqpExchange.remove d options)._q_method chan
          (deleteOkFrame d.channelNumber)).2.emitted = d.emitted ++ [.removed])) ∧
    (d.exchangeState ≠ .EX_DECLARED →
      QAmqpExchange.remove d options = { d with delayedDeclare := false } ∧
      (QAmqpExchange.remove d options).sent = d.sent ∧
      (QAmqpExchange.remove d options).exchangeState = d.exchangeState ∧
      (QAmqpExchange.remove d options).delayedDeclare = false) ∧
    ((QAmqpExchange.remove d options).sent ≠ d.sent ↔ d.exchangeState = .EX_DECLARED) := by
  have hq : qint16 0 = 0 := by decide
  refine ⟨?_, ?_, ?_⟩
  · intro hstate
    refine ⟨?_, ?_, ?_⟩
    · simp [QAmqpExchange.remove, hstate, QAmqpExchangePrivate.sendFrame,
        QAmqpExchange.deleteFrame, hq]
    · simp [QAmqpExchange.remove, hstate, QAmqpExchangePrivate.sendFrame]
    · intro hchan
      rw [q_method_exchange chan _ _ hchan rfl]
      simp [QAmqpExchange.remove, hstate, QAmqpExchangePrivate.sendFrame,
        deleteOkFrame, miDeleteOk, miDeclareOk, deleteOk, QAmqpExchangePrivate.newState,
        QAmqpExchangePrivate.emit]
  · intro hstate
    simp [QAmqpExchange.remove, hstate]
  · by_cases hstate : d.exchangeState = .EX_DECLARED
    · simp [QAmqpExchange.remove, hstate, QAmqpExchangePrivate.sendFrame]
    · simp [QAmqpExchange.remove, hstate]

/-- Witness of C12: remove on the declared exchange "logs" sends one frame and
keeps the state; on the exchange with a declare in flight it sends nothing. -/
theorem C12_remove_witness :
    (QAmqpExchange.remove logsDeclared 0).exchangeState = .EX_DECLARED ∧
    (QAmqpExchange.remove logsDeclaring 0).sent = logsDeclaring.sent :=
  have h1 := C12_remove channelOnly logsDeclared 0
  have h2 := C12_remove channelOnly logsDeclaring 0
  ⟨(h1.1 (by decide)).2.1, (h2.2.1 (by decide)).2.1⟩

/-! ## Channel events -/

/-- C13: channelOpened, from any prior state.  With an empty name the state
becomes declared, exactly one declared signal is raised and nothing else
changes (no frame is sent).  With a name and no delayed declare the state
becomes undeclared and nothing else changes.  With a name and a delayed
declare exactly one exchange.declare frame is sent, the state becomes
declaring and the flag false. -/
theorem C13_channelOpened (d : QAmqpExchangePrivate) :
    (d.name = "" →
      QAmqpExchange.channelOpened d =
        { d with exchangeState := .EX_DECLARED, emitted := d.emitted ++ [.declared] }) ∧
    (d.name ≠ "" → d.delayedDeclare = false →
      QAmqpExchange.channelOpened d = { d with exchangeState := .EX_UNDECLARED }) ∧
    (d.name ≠ "" → d.delayedDeclare = true →
      QAmqpExchange.channelOpened d =
        { d with
          exchangeState := .EX_DECLARING, delayedDeclare := false,
          sent := d.sent ++
            [.method { methodClass := .Exchange, id := miDeclare, channel := d.channelNumber,
                       arguments := [.short 0, .shortString d.name, .shortString d.type,
                                     .octet (qint8 d.options), .hash d.arguments] }] }) := by
  have hq : qint16 0 = 0 := by decide
  refine ⟨?_, ?_, ?_⟩
  · intro hname
    simp [QAmqpExchange.channelOpened, isEmpty, hname, QAmqpExchangePrivate.newState,
      QAmqpExchangePrivate.emit]
  · intro hname hflag
    simp [QAmqpExchange.channelOpened, isEmpty, hname, hflag, QAmqpExchangePrivate.newState]
  · intro hname hflag
    simp [QAmqpExchange.channelOpened, isEmpty, hname, hflag, QAmqpExchangePrivate.newState,
      QAmqpExchangePrivate.declare, QAmqpExchangePrivate.sendFrame,
      QAmqpExchangePrivate.declareFrame, hq]

/-- Witness of C13: the three cases, on a fresh nameless exchange, on the
fresh exchange "logs", and on "logs" with a delayed declare pending. -/
theorem C13_channelOpened_witness :
    (QAmqpExchange.channelOpened (QAmqpExchangePrivate.init "" 1 4096)).exchangeState =
      .EX_DECLARED ∧
    (QAmqpExchange.channelOpened (QAmqpExchangePrivate.init "logs" 1 4096)).exchangeState =
      .EX_UNDECLARED ∧
    (QAmqpExchange.channelOpened logsDelayed).exchangeState = .EX_DECLARING := by
  have h1 := (C13_channelOpened (QAmqpExchangePrivate.init "" 1 4096)).1 (by decide)
  have h2 := (C13_channelOpened (QAmqpExchangePrivate.init "logs" 1 4096)).2.1
    (by decide) (by decide)
  have h3 := (C13_channelOpened logsDelayed).2.2 (by decide) (by decide)
  exact ⟨by rw [h1], by rw [h2], by rw [h3]⟩

/-! ## Nack and return -/

/-- C15: an inbound nack, for every state, delivery tag and multiple flag,
leaves the whole exchange record unchanged: the unconfirmed set,
nextDeliveryTag, the state and the error state are as before and no signal is
raised; so it is when the frame comes through the dispatcher. -/
theorem C15_nack (chan : ChannelLayer) (d : QAmqpExchangePrivate) (ch T : Int)
    (multiple : Bool) :
    d.handleAckOrNack (nackFrame ch T multiple) = d ∧
    (chan (nackFrame ch T multiple) = none →
      d._q_method chan (nackFrame ch T multiple) = (true, d)) := by
  have h : d.handleAckOrNack (nackFrame ch T multiple) = d :=
    handle_not_ack d _ (by simp [nackFrame, bmNack, bmAck])
  refine ⟨h, ?_⟩
  intro hchan
  rw [q_method_basic chan d _ hchan rfl, h]
  simp [nackFrame]

/-- Witness of C15: a nack of tag 2 on the exchange "logs" with the tags 1, 2,
3 outstanding. -/
theorem C15_nack_witness :
    logsThree._q_method channelOnly (nackFrame 1 2 false) = (true, logsThree) :=
  (C15_nack channelOnly logsThree 1 2 false).2 (by decide)

/-- C16: an inbound basic.return with reply code c and reply text t.  If c is
not the success sentinel, the error state becomes (c, t), exactly one error
signal carrying c is raised, and nothing else changes; if c is the success
sentinel, nothing changes at all.  In both cases the unconfirmed set,
nextDeliveryTag and the state are as before; and the dispatcher hands the
frame to this handler. -/
theorem C16_basic_return (chan : ChannelLayer) (d : QAmqpExchangePrivate) (ch : Int) (c : Nat)
    (t exchangeName routingKey : String) :
    (c ≠ NoError →
      d.basicReturn (returnFrame ch c t exchangeName routingKey) =
        { d with error := c, errorString := t, emitted := d.emitted ++ [.error c] }) ∧
    (c = NoError → d.basicReturn (returnFrame ch c t exchangeName routingKey) = d) ∧
    (d.basicReturn (returnFrame ch c t exchangeName routingKey)).unconfirmedDeliveryTags =
      d.unconfirmedDeliveryTags ∧
    (d.basicReturn (returnFrame ch c t exchangeName routingKey)).nextDeliveryTag =
      d.nextDeliveryTag ∧
    (d.basicReturn (returnFrame ch c t exchangeName routingKey)).exchangeState =
      d.exchangeState ∧
    (chan (returnFrame ch c t exchangeName routingKey) = none →
      d._q_method chan (returnFrame ch c t exchangeName routingKey) =
        (true, d.basicReturn (returnFrame ch c t exchangeName routingKey))) := by
  refine ⟨?_, ?_, ?_, ?_, ?_, ?_⟩
  · intro hc
    simp [basicReturn, returnFrame, readUShort, readShortString, hc,
      QAmqpExchangePrivate.emit]
  · intro hc
    simp [basicReturn, returnFrame, readUShort, readShortString, hc]
  · by_cases hc : c = NoError <;>
      simp [basicReturn, returnFrame, readUShort, readShortString, hc,
        QAmqpExchangePrivate.emit]
  · exact (basicReturn_fields d _).2.2
  · exact (basicReturn_fields d _).1
  · intro hchan
    rw [q_method_basic chan d _ hchan rfl]
    simp [returnFrame, bmReturn, bmAck, bmNack]

/-- Witness of C16: a return with reply code 312 on the exchange "logs". -/
theorem C16_basic_return_witness :
    (logsThree.basicReturn (returnFrame 1 312 "NO_ROUTE" "logs" "rk")).error = 312 ∧
    (logsThree.basicReturn (returnFrame 1 312 "NO_ROUTE" "logs" "rk")).errorString =
      "NO_ROUTE" ∧
    (logsThree.basicReturn (returnFrame 1 312 "NO_ROUTE" "logs" "rk")).emitted = [.error 312] ∧
    logsThree._q_method channelOnly (returnFrame 1 312 "NO_ROUTE" "logs" "rk") =
      (true, logsThree.basicReturn (returnFrame 1 312 "NO_ROUTE" "logs" "rk")) := by
  have h := C16_basic_return channelOnly logsThree 1 312 "NO_ROUTE" "logs" "rk"
  have h1 := h.1 (by decide)
  exact ⟨by rw [h1], by rw [h1], by rw [h1]; rfl, h.2.2.2.2.2 (by decide)⟩

/-! ## Invariants of the reachable states -/

/-- An invariant kept by every call is kept by every sequence of calls. -/
theorem run_invariant (chan : ChannelLayer) (P : QAmqpExchangePrivate → Prop)
    (hstep : ∀ d op d1, P d → step chan d op = some d1 → P d1) :
    ∀ (ops : List Op) (d dn : QAmqpExchangePrivate), P d → run chan d ops = some dn → P dn := by
  intro ops
  induction ops with
  | nil =>
    intro d dn hP h
    simp only [run, Option.some.injEq] at h
    exact h ▸ hP
  | cons op ops ih =>
    intro d dn hP h
    simp only [run] at h
    obtain ⟨d1, h1, h2⟩ := Option.bind_eq_some.mp h
    exact ih d1 dn (hstep d op d1 hP h1) h2

/-- The public declare only sets the state to declaring and stores its
arguments: the private declare it calls returns at its first test. -/
theorem public_declare_eq (d : QAmqpExchangePrivate) (type : String) (options : Int)
    (args : QAmqpTable) :
    QAmqpExchange.declare d type options args =
      { d with exchangeState := .EX_DECLARING, type := type, options := options,
               arguments := args } := by
  simp [QAmqpExchange.declare, QAmqpExchangePrivate.declare, QAmqpExchangePrivate.newState]

/-- The shape of what handleAckOrNack returns: only the unconfirmed set, which
loses elements, and the signal log change. -/
theorem handle_shape (d : QAmqpExchangePrivate) (frame : QAmqpMethodFrame) :
    ∃ tags ev, d.handleAckOrNack frame =
        { d with unconfirmedDeliveryTags := tags, emitted := ev } ∧
      tags.Sublist d.unconfirmedDeliveryTags := by
  by_cases ha : frame.id = bmAck
  · by_cases h0 : ackTag frame = 0
    · rw [handle_ack_zero d frame ha h0]
      exact ⟨[], _, rfl, List.nil_sublist _⟩
    · by_cases hmem : ackTag frame ∈ d.unconfirmedDeliveryTags
      · obtain ⟨l1, l2, hl, hn⟩ := exists_split_of_mem _ _ hmem
        rw [handle_ack_present d frame l1 l2 ha h0 hl hn]
        have hsub : (if ackMultiple frame then l2 else l1 ++ l2).Sublist
            d.unconfirmedDeliveryTags := by
          rw [hl]
          split_ifs
          · exact (List.sublist_cons_self _ _).trans (List.sublist_append_right _ _)
          · exact List.Sublist.append (List.Sublist.refl _) (List.sublist_cons_self _ _)
        generalize (if ackMultiple frame then l2 else l1 ++ l2) = r at hsub ⊢
        by_cases hr : r = []
        · rw [if_pos hr]; exact ⟨_, _, rfl, hsub⟩
        · rw [if_neg hr]; exact ⟨_, _, rfl, hsub⟩
      · rw [handle_ack_absent d frame ha h0 hmem]
        exact ⟨_, _, rfl, List.Sublist.refl _⟩
  · rw [handle_not_ack d frame ha]
    exact ⟨_, _, rfl, List.Sublist.refl _⟩

/-- The shape of what basicReturn returns: only the error state and the signal
log change. -/
theorem basicReturn_shape (d : QAmqpExchangePrivate) (frame : QAmqpMethodFrame) :
    ∃ e s ev, d.basicReturn frame = { d with error := e, errorString := s, emitted := ev } := by
  unfold basicReturn
  simp only
  split_ifs
  · exact ⟨_, _, _, rfl⟩
  · exact ⟨_, _, _, rfl⟩

/-- The shape of what the private declare returns: the confirm bookkeeping is
not touched. -/
theorem private_declare_tags (d : QAmqpExchangePrivate) : SameTags d d.declare := by
  unfold QAmqpExchangePrivate.declare
  split_ifs <;> exact ⟨rfl, rfl⟩

/-- The callback channelOpened does not touch the confirm bookkeeping. -/
theorem channelOpened_tags (d : QAmqpExchangePrivate) :
    SameTags d (QAmqpExchange.channelOpened d) := by
  unfold QAmqpExchange.channelOpened
  by_cases hn : isEmpty d.name = true
  · rw [if_pos hn]; exact ⟨rfl, rfl⟩
  · rw [if_neg hn]
    show SameTags d (if (d.newState .EX_UNDECLARED).delayedDeclare = true
      then (d.newState .EX_UNDECLARED).declare else d.newState .EX_UNDECLARED)
    split_ifs
    · exact private_declare_tags (d.newState .EX_UNDECLARED)
    · exact ⟨rfl, rfl⟩

/-- The calls of the channel layer do not touch the confirm bookkeeping. -/
theorem hooks_tags (hooks : List ChannelHook) (d : QAmqpExchangePrivate) :
    SameTags d (hooks.foldl ChannelHook.run d) := by
  induction hooks generalizing d with
  | nil => exact ⟨rfl, rfl⟩
  | cons hook rest ih =>
    have h1 : SameTags d (hook.run d) := by
      cases hook with
      | channelOpened => exact channelOpened_tags d
      | channelClosed => exact ⟨rfl, rfl⟩
      | newState state =>
        simp only [ChannelHook.run, newChannelState]
        split_ifs <;> exact ⟨rfl, rfl⟩
    have h2 := ih (hook.run d)
    exact ⟨h2.1.trans h1.1, h2.2.trans h1.2⟩

/-- The invariant survives when the set loses elements and the next tag does
not decrease. -/
theorem tagInv_of_sublist (d d1 : QAmqpExchangePrivate)
    (hsub : d1.unconfirmedDeliveryTags.Sublist d.unconfirmedDeliveryTags)
    (hle : d.nextDeliveryTag ≤ d1.nextDeliveryTag) (h : TagInv d) : TagInv d1 := by
  obtain ⟨hp, hb, h0⟩ := h
  refine ⟨hp.sublist hsub, ?_, by omega⟩
  intro t ht
  have := hb t (hsub.subset ht)
  omega

/-- An inbound frame keeps the invariant and the next tag. -/
theorem q_method_tags (chan : ChannelLayer) (d : QAmqpExchangePrivate)
    (frame : QAmqpMethodFrame) :
    (d._q_method chan frame).2.unconfirmedDeliveryTags.Sublist d.unconfirmedDeliveryTags ∧
    (d._q_method chan frame).2.nextDeliveryTag = d.nextDeliveryTag := by
  unfold _q_method
  cases hc : chan frame with
  | some hooks =>
    have h := hooks_tags hooks d
    exact ⟨by simp only; rw [h.1], h.2⟩
  | none =>
    simp only
    split_ifs
    · obtain ⟨tags, ev, e, hsub⟩ := handle_shape d frame
      rw [e]; exact ⟨hsub, rfl⟩
    · obtain ⟨e, s, ev, h⟩ := basicReturn_shape d frame
      rw [h]; exact ⟨List.Sublist.refl _, rfl⟩
    all_goals exact ⟨List.Sublist.refl _, rfl⟩

/-- Every call keeps the invariant of the confirm bookkeeping and does not
decrease the next tag. -/
theorem step_tags (chan : ChannelLayer) (d : QAmqpExchangePrivate) (op : Op)
    (d1 : QAmqpExchangePrivate) (hinv : TagInv d) (h : step chan d op = some d1) :
    TagInv d1 ∧ d.nextDeliveryTag ≤ d1.nextDeliveryTag := by
  have same : ∀ d2 : QAmqpExchangePrivate, SameTags d d2 →
      TagInv d2 ∧ d.nextDeliveryTag ≤ d2.nextDeliveryTag := by
    intro d2 hs
    exact ⟨tagInv_of_sublist d d2 (by rw [hs.1]) (by rw [hs.2]) hinv, by rw [hs.2]⟩
  cases op with
  | declare type options args =>
    simp only [step, Option.some.injEq] at h
    subst h
    rw [public_declare_eq]
    exact same _ ⟨rfl, rfl⟩
  | declareType type options args =>
    simp only [step, Option.some.injEq] at h
    subst h
    rw [QAmqpExchange.declareType, public_declare_eq]
    exact same _ ⟨rfl, rfl⟩
  | remove options =>
    simp only [step, Option.some.injEq] at h
    subst h
    unfold QAmqpExchange.remove
    split_ifs <;> exact same _ ⟨rfl, rfl⟩
  | publish message routingKey mimeType headers properties publishOptions =>
    simp only [step] at h
    by_cases hs : d.exchangeState = .EX_DECLARED
    · obtain ⟨_, _, hn, ht⟩ := publish_fields d d1 _ _ _ _ _ _ hs h
      obtain ⟨hp, hb, h0⟩ := hinv
      by_cases hpos : d.nextDeliveryTag > 0
      · rw [if_pos hpos] at hn ht
        refine ⟨⟨?_, ?_, by omega⟩, by omega⟩
        · rw [ht, List.pairwise_append]
          refine ⟨hp, List.pairwise_singleton _ _, ?_⟩
          intro a ha b hb2
          rw [List.mem_singleton] at hb2
          rw [hb2]
          exact (hb a ha).2
        · intro t hmem
          rw [ht, List.mem_append, List.mem_singleton] at hmem
          rcases hmem with hmem | hmem
          · have := hb t hmem; omega
          · omega
      · rw [if_neg hpos] at hn ht
        exact same _ ⟨ht, hn⟩
    · simp only [QAmqpExchange.publish, QAmqpExchange.publishFuel, hs, ne_eq,
        not_false_eq_true, if_true, Option.some.injEq] at h
      subst h
      exact same _ ⟨rfl, rfl⟩
  | enableConfirms noWait =>
    simp only [step, Option.some.injEq] at h
    subst h
    unfold QAmqpExchange.enableConfirms
    by_cases hs : d.exchangeState ≠ .EX_DECLARED
    · rw [if_pos hs]; exact same _ ⟨rfl, rfl⟩
    · rw [if_neg hs]
      simp only [QAmqpExchangePrivate.sendFrame]
      split_ifs with h0
      · exact ⟨tagInv_of_sublist d _ (List.Sublist.refl _)
          (by simp only; omega) hinv, by simp only; omega⟩
      · exact same _ ⟨rfl, rfl⟩
  | channelOpened =>
    simp only [step, Option.some.injEq] at h
    subst h
    exact same _ (channelOpened_tags d)
  | channelClosed =>
    simp only [step, Option.some.injEq] at h
    subst h
    exact same _ ⟨rfl, rfl⟩
  | disconnected =>
    simp only [step, Option.some.injEq] at h
    subst h
    exact same _ ⟨rfl, rfl⟩
  | method frame =>
    simp only [step, Option.some.injEq] at h
    subst h
    obtain ⟨hsub, hn⟩ := q_method_tags chan d frame
    exact ⟨tagInv_of_sublist d _ hsub (by rw [hn]) hinv, by rw [hn]⟩

/-- Along a sequence of calls the next tag does not decrease. -/
theorem run_next_mono (chan : ChannelLayer) :
    ∀ (ops : List Op) (d dn : QAmqpExchangePrivate), TagInv d → run chan d ops = some dn →
      d.nextDeliveryTag ≤ dn.nextDeliveryTag := by
  intro ops
  induction ops with
  | nil =>
    intro d dn _ h
    simp only [run, Option.some.injEq] at h
    rw [h]
  | cons op ops ih =>
    intro d dn hinv h
    simp only [run] at h
    obtain ⟨d1, h1, h2⟩ := Option.bind_eq_some.mp h
    obtain ⟨hinv1, hle⟩ := step_tags chan d op d1 hinv h1
    exact le_trans hle (ih d1 dn hinv1 h2)

/-- The freshly constructed exchange satisfies the invariant. -/
theorem tagInv_init (name : String) (channelNumber frameMax : Int) :
    TagInv (QAmqpExchangePrivate.init name channelNumber frameMax) :=
  ⟨List.Pairwise.nil, by intro t ht; simp [QAmqpExchangePrivate.init] at ht,
    by simp [QAmqpExchangePrivate.init]⟩

/-- C18: in every state reached from the freshly constructed exchange (state
closed, nextDeliveryTag 0, empty set) by any sequence of calls and inbound
frames, the unconfirmed tag set is strictly increasing, every tag in it is at
least 1 and below nextDeliveryTag; and in every state reached from there by
further calls nextDeliveryTag is not smaller. -/
theorem C18_tag_invariant (chan : ChannelLayer) (name : String) (channelNumber frameMax : Int)
    (ops more : List Op) (d dn : QAmqpExchangePrivate)
    (hd : run chan (QAmqpExchangePrivate.init name channelNumber frameMax) ops = some d)
    (hdn : run chan d more = some dn) :
    d.unconfirmedDeliveryTags.Pairwise (· < ·) ∧
    d.unconfirmedDeliveryTags.Nodup ∧
    (∀ t ∈ d.unconfirmedDeliveryTags, 1 ≤ t ∧ t < d.nextDeliveryTag) ∧
    d.nextDeliveryTag ≤ dn.nextDeliveryTag := by
  have hinv : TagInv d :=
    run_invariant chan TagInv (fun a op b ha h => (step_tags chan a op b ha h).1) ops _ d
      (tagInv_init name channelNumber frameMax) hd
  refine ⟨hinv.1, ?_, hinv.2.1, run_next_mono chan more d dn hinv hdn⟩
  exact hinv.1.imp (fun h => ne_of_lt h)

/-- Witness of C18: the invariant after a mixed sequence of calls on the
exchange "logs", and the next tag across one more call. -/
theorem C18_tag_invariant_witness :
    ∃ d, run channelOnly (QAmqpExchangePrivate.init "logs" 1 4096) mixedSample = some d ∧
      d.unconfirmedDeliveryTags.Pairwise (· < ·) ∧
      d.nextDeliveryTag ≤ (QAmqpExchange.enableConfirms d false).nextDeliveryTag := by
  obtain ⟨d, hd⟩ := Option.isSome_iff_exists.mp
    (by decide : (run channelOnly (QAmqpExchangePrivate.init "logs" 1 4096)
      mixedSample).isSome = true)
  have h := C18_tag_invariant channelOnly "logs" 1 4096 mixedSample [.enableConfirms false] d
    (QAmqpExchange.enableConfirms d false) hd rfl
  exact ⟨d, hd, h.1, h.2.2.2⟩

/-- A body loop that ends has only added body frames to the log. -/
theorem bodyLoop_some_bodies (message : QByteArray) (n : Int) :
    ∀ (fuel : Nat) (d d1 : QAmqpExchangePrivate) (s : Int),
      QAmqpExchange.bodyLoop fuel d message n s = some d1 →
      ∃ frames, d1 = { d with sent := d.sent ++ frames } ∧
        ∀ frame ∈ frames, frame.isDeclare = false := by
  intro fuel
  induction fuel with
  | zero => intro d d1 s h; simp [QAmqpExchange.bodyLoop] at h
  | succ f ih =>
    intro d d1 s h
    unfold QAmqpExchange.bodyLoop at h
    by_cases hlt : s < n
    · rw [if_pos hlt] at h
      obtain ⟨frames, e, hfr⟩ := ih _ _ _ h
      refine ⟨Frame.contentBody d.channelNumber (mid message s (d.frameMax - 7)) :: frames,
        ?_, ?_⟩
      · rw [e]
        simp [QAmqpExchangePrivate.sendFrame]
      · intro frame hmem
        rcases List.mem_cons.mp hmem with e1 | e1
        · rw [e1]; rfl
        · exact hfr frame e1
    · rw [if_neg hlt] at h
      refine ⟨[], ?_, by simp⟩
      simp only [Option.some.injEq] at h
      simp [← h]

/-- The declare invariant survives a call that leaves the flag false and adds
only frames that are not exchange.declare. -/
theorem noDeclare_of (d d1 : QAmqpExchangePrivate) (frames : List Frame)
    (hflag : d1.delayedDeclare = false) (hsent : d1.sent = d.sent ++ frames)
    (hfr : ∀ frame ∈ frames, frame.isDeclare = false) (h : NoDeclare d) : NoDeclare d1 := by
  refine ⟨hflag, ?_⟩
  intro frame hmem
  rw [hsent, List.mem_append] at hmem
  rcases hmem with hmem | hmem
  · exact h.2 frame hmem
  · exact hfr frame hmem

/-- With no delayed declare pending, channelOpened sends nothing and leaves
the flag false. -/
theorem channelOpened_noDeclare (d : QAmqpExchangePrivate) (h : NoDeclare d) :
    NoDeclare (QAmqpExchange.channelOpened d) := by
  have hflag := h.1
  refine noDeclare_of d _ [] ?_ ?_ (by simp) h
  · by_cases hn : d.name = "" <;>
      simp [QAmqpExchange.channelOpened, isEmpty, hn, hflag, QAmqpExchangePrivate.newState,
        QAmqpExchangePrivate.emit]
  · by_cases hn : d.name = "" <;>
      simp [QAmqpExchange.channelOpened, isEmpty, hn, hflag, QAmqpExchangePrivate.newState,
        QAmqpExchangePrivate.emit]

/-- The calls of the channel layer keep the declare invariant. -/
theorem hooks_noDeclare (hooks : List ChannelHook) (d : QAmqpExchangePrivate)
    (h : NoDeclare d) : NoDeclare (hooks.foldl ChannelHook.run d) := by
  induction hooks generalizing d with
  | nil => exact h
  | cons hook rest ih =>
    apply ih
    cases hook with
    | channelOpened => exact channelOpened_noDeclare d h
    | channelClosed => exact noDeclare_of d _ [] h.1 (by simp [ChannelHook.run,
        QAmqpExchange.channelClosed, QAmqpExchangePrivate.newState]) (by simp) h
    | newState state =>
      simp only [ChannelHook.run, newChannelState]
      split_ifs
      · exact noDeclare_of d _ [] h.1 (by simp [QAmqpExchangePrivate.newState]) (by simp) h
      · exact h

/-- Every call keeps the declare invariant. -/
theorem step_noDeclare (chan : ChannelLayer) (d : QAmqpExchangePrivate) (op : Op)
    (d1 : QAmqpExchangePrivate) (hinv : NoDeclare d) (h : step chan d op = some d1) :
    NoDeclare d1 := by
  cases op with
  | declare type options args =>
    simp only [step, Option.some.injEq] at h
    subst h
    rw [public_declare_eq]
    exact noDeclare_of d _ [] hinv.1 (by simp) (by simp) hinv
  | declareType type options args =>
    simp only [step, Option.some.injEq] at h
    subst h
    rw [QAmqpExchange.declareType, public_declare_eq]
    exact noDeclare_of d _ [] hinv.1 (by simp) (by simp) hinv
  | remove options =>
    simp only [step, Option.some.injEq] at h
    subst h
    unfold QAmqpExchange.remove
    split_ifs
    · exact noDeclare_of d _ [] rfl (by simp) (by simp) hinv
    · exact noDeclare_of d _ [.method (QAmqpExchange.deleteFrame d options)] hinv.1 rfl
        (by simp [Frame.isDeclare, QAmqpExchange.deleteFrame, miDelete, miDeclare]) hinv
  | publish message routingKey mimeType headers properties publishOptions =>
    simp only [step, QAmqpExchange.publish, QAmqpExchange.publishFuel] at h
    by_cases hs : d.exchangeState = .EX_DECLARED
    · rw [if_neg (by simp [hs])] at h
      obtain ⟨frames, e, hfr⟩ := bodyLoop_some_bodies _ _ _ _ _ _ h
      refine noDeclare_of d d1
        (.method (QAmqpExchange.publishFrame d routingKey publishOptions) ::
          QAmqpExchange.contentFrame d message mimeType headers properties :: frames)
        ?_ ?_ ?_ hinv
      · rw [e]; simp only [QAmqpExchangePrivate.sendFrame]
        split_ifs <;> exact hinv.1
      · rw [e]; simp only [QAmqpExchangePrivate.sendFrame]
        split_ifs <;>
          simp [QAmqpExchange.publishFrame, QAmqpExchange.contentFrame]
      · intro frame hmem
        rcases List.mem_cons.mp hmem with e1 | hmem
        · rw [e1]; simp [Frame.isDeclare, QAmqpExchange.publishFrame]
        · rcases List.mem_cons.mp hmem with e1 | hmem
          · rw [e1]; rfl
          · exact hfr frame hmem
    · rw [if_pos (by simp [hs])] at h
      simp only [Option.some.injEq] at h
      subst h
      exact hinv
  | enableConfirms noWait =>
    simp only [step, Option.some.injEq] at h
    subst h
    unfold QAmqpExchange.enableConfirms
    by_cases hs : d.exchangeState ≠ .EX_DECLARED
    · rw [if_pos hs]; exact hinv
    · rw [if_neg hs]
      refine noDeclare_of d _ [.method (QAmqpExchange.confirmFrame d noWait)] ?_ ?_
        (by simp [Frame.isDeclare, QAmqpExchange.confirmFrame]) hinv
      · simp only [QAmqpExchangePrivate.sendFrame]
        split_ifs <;> exact hinv.1
      · simp only [QAmqpExchangePrivate.sendFrame]
        split_ifs <;> rfl
  | channelOpened =>
    simp only [step, Option.some.injEq] at h
    subst h
    exact channelOpened_noDeclare d hinv
  | channelClosed =>
    simp only [step, Option.some.injEq] at h
    subst h
    exact noDeclare_of d _ [] hinv.1 (by simp [QAmqpExchange.channelClosed,
      QAmqpExchangePrivate.newState]) (by simp) hinv
  | disconnected =>
    simp only [step, Option.some.injEq] at h
    subst h
    exact noDeclare_of d _ [] rfl (by simp [_q_disconnected,
      QAmqpExchangePrivate.newState]) (by simp) hinv
  | method frame =>
    simp only [step, Option.some.injEq] at h
    subst h
    unfold _q_method
    cases hc : chan frame with
    | some hooks => exact hooks_noDeclare hooks d hinv
    | none =>
      simp only
      split_ifs
      · obtain ⟨tags, ev, e, _⟩ := handle_shape d frame
        rw [e]; exact noDeclare_of d _ [] hinv.1 (by simp) (by simp) hinv
      · obtain ⟨e, s, ev, h⟩ := basicReturn_shape d frame
        rw [h]; exact noDeclare_of d _ [] hinv.1 (by simp) (by simp) hinv
      · exact hinv
      · exact noDeclare_of d _ [] hinv.1 (by simp [QAmqpExchangePrivate.emit]) (by simp) hinv
      · exact noDeclare_of d _ [] hinv.1 (by simp [declareOk, QAmqpExchangePrivate.emit,
          QAmqpExchangePrivate.newState]) (by simp) hinv
      · exact noDeclare_of d _ [] hinv.1 (by simp [deleteOk, QAmqpExchangePrivate.emit,
          QAmqpExchangePrivate.newState]) (by simp) hinv
      · exact hinv
      · exact hinv

/-- C19: in every state reached from the freshly constructed exchange by any
sequence of the calls of this file (public declare, remove, publish,
enableConfirms, channelOpened, channelClosed, the disconnect handler, inbound
method frames), the delayed-declare flag is false and no exchange.declare
frame is among the frames sent: each public declare only moves the state to
declaring and stores its arguments. -/
theorem C19_no_declare_sent (chan : ChannelLayer) (name : String) (channelNumber frameMax : Int)
    (ops : List Op) (d : QAmqpExchangePrivate)
    (hd : run chan (QAmqpExchangePrivate.init name channelNumber frameMax) ops = some d) :
    d.delayedDeclare = false ∧
    (∀ frame ∈ d.sent, frame.isDeclare = false) ∧
    (∀ type options args,
      QAmqpExchange.declare d type options args =
        { d with exchangeState := .EX_DECLARING, type := type, options := options,
                 arguments := args }) :=
  have hinv : NoDeclare d :=
    run_invariant chan NoDeclare (step_noDeclare chan) ops _ d
      ⟨rfl, by intro frame hmem; simp [QAmqpExchangePrivate.init] at hmem⟩ hd
  ⟨hinv.1, hinv.2, fun type options args => public_declare_eq d type options args⟩

/-- Witness of C19: after a mixed sequence of calls on the exchange "logs",
with two declares in it, the flag is false and no exchange.declare frame was
sent. -/
theorem C19_no_declare_sent_witness :
    ∃ d, run channelOnly (QAmqpExchangePrivate.init "logs" 1 4096) mixedSample = some d ∧
      d.delayedDeclare = false ∧ ∀ frame ∈ d.sent, frame.isDeclare = false := by
  obtain ⟨d, hd⟩ := Option.isSome_iff_exists.mp
    (by decide : (run channelOnly (QAmqpExchangePrivate.init "logs" 1 4096)
      mixedSample).isSome = true)
  have h := C19_no_declare_sent channelOnly "logs" 1 4096 mixedSample d hd
  exact ⟨d, hd, h.1, h.2.1⟩

/-! ## Termination of the body loop -/

/-- With a frame size of at most 7 the offset never grows: a loop entered
below the body length does not end, whatever the fuel. -/
theorem bodyLoop_none (message : QByteArray) (n : Int) :
    ∀ (fuel : Nat) (d : QAmqpExchangePrivate) (s : Int), d.frameMax ≤ 7 → s < n →
      QAmqpExchange.bodyLoop fuel d message n s = none := by
  intro fuel
  induction fuel with
  | zero => intro d s _ _; rfl
  | succ f ih =>
    intro d s hmax hlt
    unfold QAmqpExchange.bodyLoop
    rw [if_pos hlt]
    exact ih _ _ hmax (by simp only [QAmqpExchangePrivate.sendFrame]; omega)

/-- C20: the body loop of publish.  With a frame size above 7 it ends for
every body: the offset grows by frameMax - 7, at least 1, per turn, there are
body length / (frameMax - 7) rounded up turns, and any fuel above that number
(so any fuel above the body length) is enough.  With a frame size of at most 7
and a non-empty body the offset never grows, the test sent < fullSize stays
true, and the loop ends with no amount of fuel; a publish in state declared
then never returns. -/
theorem C20_body_loop_termination (d : QAmqpExchangePrivate) (message : QByteArray)
    (routingKey mimeType : String) (headers : QAmqpTable) (properties : PropertyHash)
    (publishOptions : Int) :
    (7 < d.frameMax →
      1 ≤ d.frameMax - 7 ∧
      chunkCount message.length (d.frameMax - 7).toNat ≤ message.length ∧
      ∀ fuel, chunkCount message.length (d.frameMax - 7).toNat < fuel →
        ∃ d1, QAmqpExchange.bodyLoop fuel d message (message.length : Int) 0 = some d1) ∧
    (d.frameMax ≤ 7 → message ≠ [] →
      d.frameMax - 7 ≤ 0 ∧
      (∀ fuel, QAmqpExchange.bodyLoop fuel d message (message.length : Int) 0 = none) ∧
      (d.exchangeState = .EX_DECLARED →
        (∀ fuel, QAmqpExchange.publishFuel fuel d message routingKey mimeType headers
          properties publishOptions = none) ∧
        QAmqpExchange.publish d message routingKey mimeType headers properties
          publishOptions = none)) := by
  constructor
  · intro hmax
    have hc : 0 < (d.frameMax - 7).toNat := by omega
    have hd : d.frameMax - 7 = ((d.frameMax - 7).toNat : Int) := by omega
    have hle : chunkCount message.length (d.frameMax - 7).toNat ≤ message.length := by
      by_contra hcon
      have := (lt_chunkCount_iff message.length (d.frameMax - 7).toNat message.length hc).mp
        (by omega)
      nlinarith
    refine ⟨by omega, hle, ?_⟩
    intro fuel hfuel
    have h := bodyLoop_chunks message (d.frameMax - 7).toNat hc
      (chunkCount message.length (d.frameMax - 7).toNat) 0 fuel d hd (by simp) hfuel
    simp only [Nat.zero_mul, Nat.cast_zero] at h
    exact ⟨_, h⟩
  · intro hmax hne
    have hpos : (0 : Int) < (message.length : Int) := by
      have : 0 < message.length := List.length_pos.mpr hne
      omega
    have hloop : ∀ (fuel : Nat) (d2 : QAmqpExchangePrivate), d2.frameMax = d.frameMax →
        QAmqpExchange.bodyLoop fuel d2 message (message.length : Int) 0 = none :=
      fun fuel d2 h2 => bodyLoop_none message _ fuel d2 0 (by rw [h2]; exact hmax) hpos
    refine ⟨by omega, fun fuel => hloop fuel d rfl, ?_⟩
    intro hstate
    have hpub : ∀ fuel, QAmqpExchange.publishFuel fuel d message routingKey mimeType headers
        properties publishOptions = none := by
      intro fuel
      unfold QAmqpExchange.publishFuel
      rw [if_neg (by simp [hstate])]
      exact hloop fuel _ (by simp only [QAmqpExchangePrivate.sendFrame]; split_ifs <;> rfl)
    exact ⟨hpub, hpub _⟩

/-- Witness of C20: on the exchange "logs" with a frame size of 9 the loop
over a body of five bytes ends with four units of fuel; with a frame size of 7
the loop over the same body does not end with a thousand. -/
theorem C20_body_loop_termination_witness :
    (∃ d1, QAmqpExchange.bodyLoop 4 logsSmallFrames [1, 2, 3, 4, 5] 5 0 = some d1) ∧
    QAmqpExchange.bodyLoop 1000 { logsSmallFrames with frameMax := 7 } [1, 2, 3, 4, 5] 5 0 =
      none :=
  ⟨((C20_body_loop_termination logsSmallFrames [1, 2, 3, 4, 5] "rk" "text.plain" [] [] 0).1
      (by decide)).2.2 4 (by decide),
   ((C20_body_loop_termination { logsSmallFrames with frameMax := 7 } [1, 2, 3, 4, 5] "rk"
      "text.plain" [] [] 0).2 (by decide) (by decide)).2.1 1000⟩

/-! ## The end-to-end scenario -/

/-- What a publish in state declared with a frame size above 7 does to the
fields that the scenario observes. -/
theorem publish_profile (d : QAmqpExchangePrivate) (message : QByteArray)
    (routingKey mimeType : String) (headers : QAmqpTable) (properties : PropertyHash)
    (publishOptions : Int) (hstate : d.exchangeState = .EX_DECLARED) (hmax : 7 < d.frameMax) :
    ∃ d1, QAmqpExchange.publish d message routingKey mimeType headers properties
        publishOptions = some d1 ∧
      d1.exchangeState = .EX_DECLARED ∧ d1.frameMax = d.frameMax ∧ d1.emitted = d.emitted ∧
      d1.nextDeliveryTag =
        (if d.nextDeliveryTag > 0 then d.nextDeliveryTag + 1 else d.nextDeliveryTag) ∧
      d1.unconfirmedDeliveryTags =
        (if d.nextDeliveryTag > 0 then d.unconfirmedDeliveryTags ++ [d.nextDeliveryTag]
         else d.unconfirmedDeliveryTags) :=
  ⟨_, publishFuel_declared d message routingKey mimeType headers properties publishOptions
    (message.length + 1) hstate hmax (by omega), hstate, rfl, rfl, rfl, rfl⟩

/-- The exchange "logs" right after its channel opened. -/
theorem logs_opened (ch fm : Int) :
    QAmqpExchange.channelOpened (QAmqpExchangePrivate.init "logs" ch fm) =
      { QAmqpExchangePrivate.init "logs" ch fm with exchangeState := .EX_UNDECLARED } := by
  have hname : ("logs" : String) ≠ "" := by decide
  simp [QAmqpExchange.channelOpened, isEmpty, hname, QAmqpExchangePrivate.init,
    QAmqpExchangePrivate.newState]

/-- C17: the end-to-end scenario for the exchange "logs" on a freshly opened
channel, for every channel number, every frame size above 7, every three
bodies and every channel layer that leaves the four inbound frames to the
exchange.  Declare as topic then declare-ok: state declared, one declared
signal.  A publish before confirms: set empty, nextDeliveryTag 0.
enableConfirms(false) then confirm-ok: confirmsEnabled raised, nextDeliveryTag
1.  Two publishes: set 1, 2.  Ack(1, single): set 2.  Ack(2, cumulative): set
empty, and allMessagesDelivered occurs exactly once among the signals of the
whole trace. -/
theorem C17_scenario (chan : ChannelLayer) (ch fm : Int) (b0 b1 b2 : QByteArray)
    (hfm : 7 < fm) (hc1 : chan (declareOkFrame ch) = none)
    (hc2 : chan (confirmOkFrame ch) = none) (hc3 : chan (ackFrame ch 1 false) = none)
    (hc4 : chan (ackFrame ch 2 true) = none) :
    ∃ s2 s3 s5 s7 s8 s9,
      run chan (QAmqpExchange.channelOpened (QAmqpExchangePrivate.init "logs" ch fm))
        [.declareType .Topic 0 [], .method (declareOkFrame ch)] = some s2 ∧
      s2.exchangeState = .EX_DECLARED ∧ s2.emitted = [.declared] ∧
      run chan s2 [.publish b0 "rk" "text.plain" [] [] 0] = some s3 ∧
      s3.unconfirmedDeliveryTags = [] ∧ s3.nextDeliveryTag = 0 ∧
      run chan s3 [.enableConfirms false, .method (confirmOkFrame ch)] = some s5 ∧
      s5.emitted = [.declared, .confirmsEnabled] ∧ s5.nextDeliveryTag = 1 ∧
      run chan s5 [.publish b1 "rk" "text.plain" [] [] 0,
                   .publish b2 "rk" "text.plain" [] [] 0] = some s7 ∧
      s7.unconfirmedDeliveryTags = [1, 2] ∧
      run chan s7 [.method (ackFrame ch 1 false)] = some s8 ∧
      s8.unconfirmedDeliveryTags = [2] ∧
      run chan s8 [.method (ackFrame ch 2 true)] = some s9 ∧
      s9.unconfirmedDeliveryTags = [] ∧
      s9.emitted = [.declared, .confirmsEnabled, .allMessagesDelivered] ∧
      s9.emitted.count .allMessagesDelivered = 1 ∧
      run chan (QAmqpExchange.channelOpened (QAmqpExchangePrivate.init "logs" ch fm))
        (logsScenario ch b0 b1 b2) = some s9 := by
  -- declare, declare-ok
  have e2 : run chan (QAmqpExchange.channelOpened (QAmqpExchangePrivate.init "logs" ch fm))
      [.declareType .Topic 0 [], .method (declareOkFrame ch)] =
      some ((QAmqpExchange.declareType
        (QAmqpExchange.channelOpened (QAmqpExchangePrivate.init "logs" ch fm))
        .Topic 0 []).declareOk (declareOkFrame ch)) := by
    simp only [run, step, Option.some_bind]
    rw [q_method_exchange chan _ _ hc1 rfl]
    simp [declareOkFrame]
  obtain ⟨s2, hs2⟩ : ∃ s2, s2 = (QAmqpExchange.declareType
      (QAmqpExchange.channelOpened (QAmqpExchangePrivate.init "logs" ch fm))
      .Topic 0 []).declareOk (declareOkFrame ch) := ⟨_, rfl⟩
  rw [← hs2] at e2
  have p2 : s2.exchangeState = .EX_DECLARED ∧ s2.emitted = [.declared] ∧ s2.frameMax = fm ∧
      s2.nextDeliveryTag = 0 ∧ s2.unconfirmedDeliveryTags = [] := by
    rw [hs2, QAmqpExchange.declareType, public_declare_eq, logs_opened]
    simp [declareOk, QAmqpExchangePrivate.newState, QAmqpExchangePrivate.emit,
      QAmqpExchangePrivate.init]
  obtain ⟨st2, ev2, fm2, nx2, tg2⟩ := p2
  -- the publish before confirms
  obtain ⟨s3, hp3, st3, fm3, ev3, nx3, tg3⟩ := publish_profile s2 b0 "rk" "text.plain" [] [] 0
    st2 (by rw [fm2]; exact hfm)
  simp only [nx2, gt_iff_lt, lt_self_iff_false, if_false] at nx3 tg3
  -- enableConfirms, confirm-ok
  obtain ⟨s5, hs5⟩ : ∃ s5, s5 = (QAmqpExchange.enableConfirms s3 false).emit .confirmsEnabled :=
    ⟨_, rfl⟩
  have e5 : run chan s3 [.enableConfirms false, .method (confirmOkFrame ch)] = some s5 := by
    simp only [run, step, Option.some_bind]
    rw [q_method_confirmOk chan _ ch hc2, hs5]
  have p5 : s5.exchangeState = .EX_DECLARED ∧ s5.emitted = [.declared, .confirmsEnabled] ∧
      s5.frameMax = fm ∧ s5.nextDeliveryTag = 1 ∧ s5.unconfirmedDeliveryTags = [] := by
    rw [hs5]
    simp [QAmqpExchange.enableConfirms, st3, nx3, QAmqpExchangePrivate.sendFrame,
      QAmqpExchangePrivate.emit, ev3, ev2, fm3, fm2, tg3, tg2]
  obtain ⟨st5, ev5, fm5, nx5, tg5⟩ := p5
  -- two publishes
  obtain ⟨s6, hp6, st6, fm6, ev6, nx6, tg6⟩ := publish_profile s5 b1 "rk" "text.plain" [] [] 0
    st5 (by rw [fm5]; exact hfm)
  simp only [nx5, tg5, gt_iff_lt, zero_lt_one, if_true, List.nil_append] at nx6 tg6
  obtain ⟨s7, hp7, st7, fm7, ev7, nx7, tg7⟩ := publish_profile s6 b2 "rk" "text.plain" [] [] 0
    st6 (by rw [fm6, fm5]; exact hfm)
  simp only [nx6, tg6] at nx7 tg7
  norm_num at nx7 tg7
  have e7 : run chan s5 [.publish b1 "rk" "text.plain" [] [] 0,
      .publish b2 "rk" "text.plain" [] [] 0] = some s7 := by
    simp only [run, step, hp6, Option.some_bind, hp7]
  -- ack 1
  have e8 : (s7._q_method chan (ackFrame ch 1 false)).2 =
      { s7 with unconfirmedDeliveryTags := [2] } := by
    rw [q_method_basic chan _ _ hc3 rfl]
    have hpres := handle_ack_present s7 (ackFrame ch 1 false) [] [2] rfl
      (by show (1 : Int) ≠ 0; decide)
      (by rw [tg7]; rfl) (by simp)
    have hm : ackMultiple (ackFrame ch 1 false) = false := rfl
    have hid : (ackFrame ch 1 false).id = bmAck := rfl
    rw [hm] at hpres
    simp only [hid, true_or, if_true]
    rw [hpres]
    simp
  obtain ⟨s8, hs8⟩ : ∃ s8, s8 = ({ s7 with unconfirmedDeliveryTags := [2] } :
      QAmqpExchangePrivate) := ⟨_, rfl⟩
  -- ack 2
  have e9 : (s8._q_method chan (ackFrame ch 2 true)).2 =
      ({ s8 with unconfirmedDeliveryTags := [] } : QAmqpExchangePrivate).emit
        .allMessagesDelivered := by
    rw [q_method_basic chan _ _ hc4 rfl]
    have hpres := handle_ack_present s8 (ackFrame ch 2 true) [] [] rfl
      (by show (2 : Int) ≠ 0; decide)
      (by rw [hs8]; rfl) (by simp)
    have hm : ackMultiple (ackFrame ch 2 true) = true := rfl
    have hid : (ackFrame ch 2 true).id = bmAck := rfl
    rw [hm] at hpres
    simp only [hid, true_or, if_true]
    rw [hpres]
    simp
  obtain ⟨s9, hs9⟩ : ∃ s9, s9 = (({ s8 with unconfirmedDeliveryTags := [] } :
      QAmqpExchangePrivate).emit .allMessagesDelivered) := ⟨_, rfl⟩
  have ev9 : s9.emitted = [.declared, .confirmsEnabled, .allMessagesDelivered] := by
    rw [hs9, hs8]
    simp [QAmqpExchangePrivate.emit, ev7, ev6, ev5]
  have r8 : run chan s7 [.method (ackFrame ch 1 false)] = some s8 := by
    simp only [run, step, Option.some_bind, e8, hs8]
  have r9 : run chan s8 [.method (ackFrame ch 2 true)] = some s9 := by
    simp only [run, step, Option.some_bind, e9, hs9]
  refine ⟨s2, s3, s5, s7, s8, s9, e2, st2, ev2, ?_, tg3.trans tg2, nx3, e5, ev5, nx5, e7, tg7,
    r8, by rw [hs8], r9, by rw [hs9]; rfl, ev9, by rw [ev9]; decide, ?_⟩
  · simp only [run, step, hp3, Option.some_bind]
  · have hsplit : logsScenario ch b0 b1 b2 =
        [.declareType .Topic 0 [], .method (declareOkFrame ch)] ++
        ([.publish b0 "rk" "text.plain" [] [] 0] ++
        ([.enableConfirms false, .method (confirmOkFrame ch)] ++
        ([.publish b1 "rk" "text.plain" [] [] 0, .publish b2 "rk" "text.plain" [] [] 0] ++
        ([.method (ackFrame ch 1 false)] ++ [.method (ackFrame ch 2 true)])))) := rfl
    have r3 : run chan s2 [.publish b0 "rk" "text.plain" [] [] 0] = some s3 := by
      simp only [run, step, hp3, Option.some_bind]
    rw [hsplit, run_append, e2, Option.some_bind, run_append, r3, Option.some_bind,
      run_append, e5, Option.some_bind, run_append, e7, Option.some_bind, run_append, r8,
      Option.some_bind, r9]

/-- Witness of C17: the scenario on channel 1 with a frame size of 4096 and
the body "hello". -/
theorem C17_scenario_witness :
    ∃ s9, run channelOnly (QAmqpExchange.channelOpened (QAmqpExchangePrivate.init "logs" 1 4096))
        (logsScenario 1 [104, 101, 108, 108, 111] [104, 105] []) = some s9 ∧
      s9.unconfirmedDeliveryTags = [] ∧
      s9.emitted = [.declared, .confirmsEnabled, .allMessagesDelivered] := by
  obtain ⟨_, _, _, _, _, s9, h⟩ := C17_scenario channelOnly 1 4096 [104, 101, 108, 108, 111]
    [104, 105] [] (by decide) (by decide) (by decide) (by decide) (by decide)
  exact ⟨s9, h.2.2.2.2.2.2.2.2.2.2.2.2.2.2.2.2.2, h.2.2.2.2.2.2.2.2.2.2.2.2.2.2.1,
    h.2.2.2.2.2.2.2.2.2.2.2.2.2.2.2.1⟩

/-! ## Channel close -/

/-- The disconnect handler, on any record: the state becomes closed, the flag
false, and nothing else changes. -/
theorem disconnected_eq (d : QAmqpExchangePrivate) :
    d._q_disconnected = { d with exchangeState := .EX_CLOSED, delayedDeclare := false } :=
  rfl

end QAmqp
